import Mathlib

/-! Verification of the ToumaPet emulator core (`toumapet.c`) against its
natural-language specification.  CPU memory, ROM and the framebuffer are
modelled as total functions `Nat → Nat` holding byte values; machine
integers become `Nat` (or `Int` where the C code computes with signed
ints), with explicit truncation (`% 256`, `&&& 0xffff`, …) exactly where
the C code truncates through its integer types. -/

set_option maxRecDepth 100000
set_option maxHeartbeats 1000000

namespace Touma

/-- Little-endian 16-bit read, `READ16` in the source. -/
def read16 (f : Nat → Nat) (p : Nat) : Nat := f p ||| f (p+1) <<< 8

/-- Little-endian 24-bit read, `READ24` in the source. -/
def read24 (f : Nat → Nat) (p : Nat) : Nat :=
  f p ||| f (p+1) <<< 8 ||| f (p+2) <<< 16

/-- Pointwise update of a byte store (array assignment `f[a] = v`). -/
def upd (f : Nat → Nat) (a v : Nat) : Nat → Nat :=
  fun i => if i = a then v else f i

/-- C's `x & 0xff` applied to a possibly negative `int` value
(two's complement): the representative of `x` modulo 256. -/
def iand255 (x : Int) : Nat := (x % 256).toNat

/-! ## C1: decimal-mode ADC (`run_emu`, `op_add2`, lines 1056-1087) -/

/-- Decimal-mode ADC low nibble (source: `b = (a & 15) + (t & 15) + carry`,
then `if (b >= 10) b += 6`). -/
def adcDecLow (a m c : Nat) : Nat :=
  let b := (a &&& 15) + (m &&& 15) + c
  if 10 ≤ b then b + 6 else b

/-- Decimal-mode ADC high part before the 0x60 fixup (source:
`b = (a & 0xf0) + (t & 0xf0) + (b >= 16 ? 16 : 0) + (b & 15)`). -/
def adcDecHigh (a m c : Nat) : Nat :=
  let b := adcDecLow a m c
  (a &&& 0xf0) + (m &&& 0xf0) + (if 16 ≤ b then 16 else 0) + (b &&& 15)

/-- Decimal-mode ADC as executed by `run_emu` (D flag set, opcode ≤ 0x7f):
returns the 8-bit result and the C, V, N, Z flags.  The carry flag is
`cflag >= 0x100` where `cflag = b` is assigned AFTER the `+0x60` fixup. -/
def adcDec (a m c : Nat) : Nat × Bool × Bool × Bool × Bool :=
  let d := a ^^^ m
  let b := adcDecHigh a m c
  let v := decide ((b ^^^ a) &&& (d ^^^ 0xff) &&& 0x80 ≠ 0)
  let b := if 0xa0 ≤ b then b + 0x60 else b
  (b % 256, decide (0x100 ≤ b), v,
   decide (b % 256 &&& 0x80 ≠ 0), decide (b % 256 = 0))

/-- Claim C1's step-by-step description of decimal ADC, written from the
spec's own words: low nibble `(A mod 16) + (M mod 16) + C` with 6 added
when ≥ 10; high part from the 0xF0 parts; V from bit 7 of
`(result ^ A) & ~(A ^ M)`; `+0x60` when the high part is ≥ 0xA0; and the
carry taken from the PRE-fixup high part being ≥ 0x100. -/
def adcDecClaimC1 (a m c : Nat) : Nat × Bool × Bool × Bool × Bool :=
  let low0 := a % 16 + m % 16 + c
  let low := if 10 ≤ low0 then low0 + 6 else low0
  let high := a / 16 * 16 + m / 16 * 16 + (if 16 ≤ low then 16 else 0) + low % 16
  let v := Nat.testBit ((high ^^^ a) &&& ((a ^^^ m) ^^^ 0xff)) 7
  let res := if 0xa0 ≤ high then high + 0x60 else high
  (res % 256, decide (0x100 ≤ high), v,
   Nat.testBit (res % 256) 7, decide (res % 256 = 0))

/-- Amended C1: identical to the claim's description except that the carry
flag is set iff the pre-fixup high part is ≥ 0xA0 (equivalently, iff the
value AFTER the `+0x60` adjustment is ≥ 0x100). -/
def adcDecAmendedC1 (a m c : Nat) : Nat × Bool × Bool × Bool × Bool :=
  let low0 := a % 16 + m % 16 + c
  let low := if 10 ≤ low0 then low0 + 6 else low0
  let high := a / 16 * 16 + m / 16 * 16 + (if 16 ≤ low then 16 else 0) + low % 16
  let v := Nat.testBit ((high ^^^ a) &&& ((a ^^^ m) ^^^ 0xff)) 7
  let res := if 0xa0 ≤ high then high + 0x60 else high
  (res % 256, decide (0xa0 ≤ high), v,
   Nat.testBit (res % 256) 7, decide (res % 256 = 0))

/-- C1 fails as stated: at A = 0x50, M = 0x50, C = 0 the pre-fixup high
part is 0xA0 < 0x100, so the claim predicts a clear carry, but the code
sets the carry flag (it tests `cflag` after the `+0x60` adjustment). -/
theorem c1_carry_counterexample :
    adcDec 0x50 0x50 0 ≠ adcDecClaimC1 0x50 0x50 0 ∧
    (adcDec 0x50 0x50 0).2.1 = true ∧
    (adcDecClaimC1 0x50 0x50 0).2.1 = false := by
  refine ⟨?_, by decide, by decide⟩
  decide

/-- Helper: `x &&& 15 = x % 16`. -/
theorem and15_eq_mod (x : Nat) : x &&& 15 = x % 16 :=
  Nat.and_pow_two_sub_one_eq_mod x 4

/-- Helper: for a byte, `x &&& 0xf0 = x / 16 * 16`. -/
theorem and240_eq (x : Nat) (hx : x < 256) : x &&& 0xf0 = x / 16 * 16 := by
  have : ∀ y < 256, y &&& 0xf0 = y / 16 * 16 := by decide
  exact this x hx

/-- Helper: bit 7 as a mask test, for values below 1024. -/
theorem testBit7_eq (x : Nat) (hx : x < 1024) :
    Nat.testBit x 7 = decide (x &&& 0x80 ≠ 0) := by
  have : ∀ y < 1024, Nat.testBit y 7 = decide (y &&& 0x80 ≠ 0) := by decide
  exact this x hx

/-- C1 (amended): in decimal mode, ADC of A, M and carry-in C follows the
claimed steps for every A, M in [0,255] and C in {0,1} — low nibble
`(A mod 16)+(M mod 16)+C` with `+6` when ≥ 10, high part from the 0xF0
parts plus the low-nibble carry, V from bit 7 of
`(high ^ A) & ~(A ^ M)`, `+0x60` when the high part is ≥ 0xA0, and A, N,
Z from the final 8-bit result — with the carry flag set iff the
pre-fixup high part is ≥ 0xA0 (not ≥ 0x100 as the claim stated). -/
theorem c1_adc_decimal (a m c : Nat) (ha : a < 256) (hm : m < 256) (_hc : c < 2) :
    adcDec a m c = adcDecAmendedC1 a m c := by
  have hxm : a ^^^ m < 256 := by
    simpa using Nat.xor_lt_two_pow (n := 8) (by omega) (by omega)
  have hd : (a ^^^ m) ^^^ 0xff < 256 := by
    simpa using Nat.xor_lt_two_pow (n := 8) hxm (by omega)
  have hlow : adcDecLow a m c = (if 10 ≤ a % 16 + m % 16 + c
      then a % 16 + m % 16 + c + 6 else a % 16 + m % 16 + c) := by
    rw [adcDecLow, and15_eq_mod, and15_eq_mod]
  have hhigh : adcDecHigh a m c = a / 16 * 16 + m / 16 * 16 +
      (if 16 ≤ adcDecLow a m c then 16 else 0) + adcDecLow a m c % 16 := by
    rw [adcDecHigh]
    rw [and240_eq a ha, and240_eq m hm, and15_eq_mod]
  simp only [adcDec, adcDecAmendedC1, ← hlow, ← hhigh, Prod.mk.injEq]
  set hi := adcDecHigh a m c with hhi
  have hvb : (hi ^^^ a) &&& ((a ^^^ m) ^^^ 0xff) < 1024 :=
    lt_of_le_of_lt (Nat.and_le_right) (by omega)
  refine ⟨trivial, ?_, ?_, ?_, trivial⟩
  · simp only [decide_eq_decide]
    split <;> omega
  · rw [testBit7_eq _ hvb]
  · rw [testBit7_eq _ (lt_of_lt_of_le (Nat.mod_lt _ (by omega)) (by omega))]

/-- Witness for C1: the amended claim applied at A = 0x99, M = 0x99, C = 1. -/
theorem c1_adc_decimal_witness :
    0x99 < 256 ∧ adcDec 0x99 0x99 1 = adcDecAmendedC1 0x99 0x99 1 :=
  ⟨by decide, c1_adc_decimal 0x99 0x99 1 (by decide) (by decide) (by decide)⟩

/-! ## C7: ROM verification and unmasking (`check_rom`, lines 1453-1470) -/

/-- XOR key derivation: `key = rom[0x23] ^ 't'` (source line 1460). -/
def romKeyOf (rom : Nat → Nat) : Nat := rom 0x23 ^^^ 116

/-- Whole-ROM XOR unmasking (source lines 1465-1466): when the key is
nonzero every byte below the ROM size is XOR'd with it. -/
def unmask (rom : Nat → Nat) (romSize key : Nat) : Nat → Nat :=
  if key = 0 then rom
  else fun i => if i < romSize then rom i ^^^ key else rom i

/-- check_rom: rejects ROMs under 64 KiB, derives the XOR key, verifies
that the three bytes after 0x23 XOR'd with the key spell "ony", unmasks
the ROM, and requires the resource-table offset (24-bit LE value of the
first three unmasked bytes) to be at most the ROM size.  `none` models
`ERR_EXIT`. -/
def checkRom (rom : Nat → Nat) (romSize : Nat) : Option (Nat × (Nat → Nat)) :=
  if romSize < 0x10000 then none else
  let key := romKeyOf rom
  if rom 0x24 ^^^ key ≠ 111 then none else
  if rom 0x25 ^^^ key ≠ 110 then none else
  if rom 0x26 ^^^ key ≠ 121 then none else
  let rom' := unmask rom romSize key
  if romSize < read24 rom' 0 then none else
  some (key, rom')

/-- Helper: below the ROM size, unmasking is a plain bytewise XOR. -/
theorem unmask_lt (rom : Nat → Nat) (romSize key i : Nat) (hi : i < romSize) :
    unmask rom romSize key i = rom i ^^^ key := by
  unfold unmask
  by_cases hk : key = 0
  · simp [hk]
  · simp [hk, hi]

/-- C7: `check_rom` succeeds exactly when the size is at least 64 KiB, the
plaintext at 0x23..0x26 spells "tony" (equivalently, the XOR'd magic
matches), and the resource-table offset — the 24-bit LE value of the
first three plaintext bytes — does not exceed the ROM size; on success
the returned key is `rom[0x23] ^ 't'`, the ROM is unmasked bytewise with
that key, and the first three unmasked bytes give the resource-table
offset. -/
theorem c7_check_rom (rom : Nat → Nat) (romSize : Nat) :
    ((checkRom rom romSize).isSome ↔
      0x10000 ≤ romSize ∧
      rom 0x24 ^^^ romKeyOf rom = 111 ∧
      rom 0x25 ^^^ romKeyOf rom = 110 ∧
      rom 0x26 ^^^ romKeyOf rom = 121 ∧
      read24 (fun i => rom i ^^^ romKeyOf rom) 0 ≤ romSize) ∧
    (∀ key rom2, checkRom rom romSize = some (key, rom2) →
      key = romKeyOf rom ∧
      (∀ i, i < romSize → rom2 i = rom i ^^^ key) ∧
      read24 rom2 0 = read24 (fun i => rom i ^^^ key) 0) := by
  by_cases h1 : romSize < 0x10000
  · have hck : checkRom rom romSize = none := by
      unfold checkRom
      rw [if_pos h1]
    refine ⟨?_, fun key rom2 h => ?_⟩
    · rw [hck]
      simp only [Option.isSome_none, Bool.false_eq_true, false_iff]
      intro h
      exact absurd h.1 (by omega)
    · rw [hck] at h
      cases h
  by_cases h2 : rom 0x24 ^^^ romKeyOf rom = 111
  rotate_left
  · have hck : checkRom rom romSize = none := by
      unfold checkRom
      rw [if_neg h1, if_pos h2]
    refine ⟨?_, fun key rom2 h => ?_⟩
    · rw [hck]
      simp only [Option.isSome_none, Bool.false_eq_true, false_iff]
      intro h
      exact h2 h.2.1
    · rw [hck] at h
      cases h
  by_cases h3 : rom 0x25 ^^^ romKeyOf rom = 110
  rotate_left
  · have hck : checkRom rom romSize = none := by
      unfold checkRom
      rw [if_neg h1, if_neg (not_not_intro h2), if_pos h3]
    refine ⟨?_, fun key rom2 h => ?_⟩
    · rw [hck]
      simp only [Option.isSome_none, Bool.false_eq_true, false_iff]
      intro h
      exact h3 h.2.2.1
    · rw [hck] at h
      cases h
  by_cases h4 : rom 0x26 ^^^ romKeyOf rom = 121
  rotate_left
  · have hck : checkRom rom romSize = none := by
      unfold checkRom
      rw [if_neg h1, if_neg (not_not_intro h2), if_neg (not_not_intro h3), if_pos h4]
    refine ⟨?_, fun key rom2 h => ?_⟩
    · rw [hck]
      simp only [Option.isSome_none, Bool.false_eq_true, false_iff]
      intro h
      exact h4 h.2.2.2.1
    · rw [hck] at h
      cases h
  -- the magic matches; relate the unmasked ROM to the plaintext
  have hsz : 0x10000 ≤ romSize := Nat.not_lt.mp h1
  have hrd : read24 (unmask rom romSize (romKeyOf rom)) 0 =
      read24 (fun i => rom i ^^^ romKeyOf rom) 0 := by
    rw [read24, read24, unmask_lt rom romSize _ 0 (by omega),
       unmask_lt rom romSize _ 1 (by omega), unmask_lt rom romSize _ 2 (by omega)]
  by_cases h5 : romSize < read24 (fun i => rom i ^^^ romKeyOf rom) 0
  · have hck : checkRom rom romSize = none := by
      unfold checkRom
      rw [if_neg h1, if_neg (not_not_intro h2), if_neg (not_not_intro h3),
         if_neg (not_not_intro h4), if_pos (by rw [hrd]; exact h5)]
    refine ⟨?_, fun key rom2 h => ?_⟩
    · rw [hck]
      simp only [Option.isSome_none, Bool.false_eq_true, false_iff]
      intro h
      exact absurd h.2.2.2.2 (by omega)
    · rw [hck] at h
      cases h
  · have hck : checkRom rom romSize =
        some (romKeyOf rom, unmask rom romSize (romKeyOf rom)) := by
      unfold checkRom
      rw [if_neg h1, if_neg (not_not_intro h2), if_neg (not_not_intro h3),
         if_neg (not_not_intro h4), if_neg (by rw [hrd]; exact h5)]
    refine ⟨?_, fun key rom2 h => ?_⟩
    · rw [hck]
      simp only [Option.isSome_some, true_iff]
      exact ⟨hsz, h2, h3, h4, by omega⟩
    · rw [hck] at h
      injection h with h
      injection h with hk hr
      subst hk
      subst hr
      exact ⟨rfl, fun i hi => unmask_lt rom romSize _ i hi, hrd⟩

/-- Concrete plaintext ROM (key 0) with magic "tony" and resource-table
offset 0, used to witness C7. -/
def romC7 : Nat → Nat := fun i =>
  if i = 0x23 then 116 else if i = 0x24 then 111
  else if i = 0x25 then 110 else if i = 0x26 then 121 else 0

/-- Witness for C7: `romC7` at size 4 MiB satisfies the success conditions,
and the characterization then shows `check_rom` accepts it. -/
theorem c7_check_rom_witness : (checkRom romC7 0x400000).isSome = true :=
  (c7_check_rom romC7 0x400000).1.mpr (by decide)


/-! ## C8: save-file loading (`main`, lines 1568-1582, and `xor_save`) -/

/-- Number of bytes `fread` returns when `req` bytes are requested and
`avail` bytes remain in the file stream. -/
def freadLen (avail req : Nat) : Nat := min req avail

/-- Result of a successful save-file load. -/
structure LoadedSave where
  mem : Nat → Nat
  rom : Nat → Nat
  screen : Nat → Nat
  initDone : Bool

/-- Save-file loading: reads 64 KiB into CPU RAM, then
`rom_size - save_offs` bytes into the save region, then
`SCREEN_W * screen_h` bytes into the framebuffer.  The first two counts
are checked (`n1 != sizeof(cpu.mem)` and `n2 != 0x10000` abort); the
framebuffer count is discarded by the source (`(void)n3;`).  On success
`xor_save` XORs the save region with the ROM key and `init_done` is set.
`none` models `ERR_EXIT`. -/
def loadSave (cpuMem rom screen : Nat → Nat)
    (romSize saveOffs romKey screenH : Nat)
    (file : Nat → Nat) (fileLen : Nat) : Option LoadedSave :=
  let n1 := freadLen fileLen 0x10000
  let n2 := freadLen (fileLen - n1) (romSize - saveOffs)
  let n3 := freadLen (fileLen - n1 - n2) (128 * screenH)
  let mem' := fun i => if i < n1 then file i else cpuMem i
  let rom' := fun i => if saveOffs ≤ i ∧ i < saveOffs + n2
                       then file (n1 + (i - saveOffs)) else rom i
  let screen' := fun i => if i < n3 then file (n1 + n2 + i) else screen i
  if n1 ≠ 0x10000 then none else
  if n2 ≠ 0x10000 then none else
  let rom2 := if romKey = 0 then rom'
              else fun i => if saveOffs ≤ i ∧ i < romSize
                            then rom' i ^^^ romKey else rom' i
  some ⟨mem', rom2, screen', true⟩

/-- C8 fails as stated: with a save file of exactly 0x20000 bytes (RAM and
save region complete, framebuffer section empty) the framebuffer read
count mismatches (`0 ≠ 128*128`), yet the load succeeds — the source
discards `n3` with `(void)n3;`, so that mismatch is not fatal. -/
theorem c8_counterexample :
    freadLen (0x20000 - 0x10000 - 0x10000) (128 * 128) ≠ 128 * 128 ∧
    (loadSave (fun _ => 0) (fun _ => 0) (fun _ => 0) 0x400000 0x3f0000 0 128
      (fun _ => 0) 0x20000).isSome = true := by
  exact ⟨by decide, by rfl⟩

/-- C8 (amended): when a save file exists at startup, loading reads 64 KiB
of CPU RAM, then `rom_size - save_offs` save-region bytes, then
`SCREEN_W * screen_h` framebuffer bytes; a short read of the CPU-RAM or
save-region section is fatal, while the framebuffer read count is not
checked; on success the save region is XOR'd with `rom_key` (so it holds
the file bytes XOR `rom_key`) and init_done is set. -/
theorem c8_load_save (cpuMem rom screen file : Nat → Nat)
    (romSize saveOffs romKey screenH fileLen : Nat)
    (hso : saveOffs + 0x10000 = romSize) :
    ((loadSave cpuMem rom screen romSize saveOffs romKey screenH file
        fileLen).isSome ↔ 0x20000 ≤ fileLen) ∧
    (∀ r, loadSave cpuMem rom screen romSize saveOffs romKey screenH file
        fileLen = some r →
      r.initDone = true ∧
      (∀ i, i < 0x10000 → r.mem i = file i) ∧
      (∀ i, saveOffs ≤ i → i < romSize →
        r.rom i = file (0x10000 + (i - saveOffs)) ^^^ romKey) ∧
      (∀ i, i < freadLen (fileLen - 0x20000) (128 * screenH) →
        r.screen i = file (0x20000 + i))) := by
  have hrs : romSize - saveOffs = 0x10000 := by omega
  have h3 : freadLen (fileLen - 0x10000 - 0x10000) (128 * screenH) =
      freadLen (fileLen - 0x20000) (128 * screenH) := by
    unfold freadLen
    omega
  by_cases hlen : 0x20000 ≤ fileLen
  · have hn1 : freadLen fileLen 0x10000 = 0x10000 := by
      unfold freadLen
      omega
    have hn2 : freadLen (fileLen - 0x10000) (romSize - saveOffs) = 0x10000 := by
      unfold freadLen
      omega
    have hck : loadSave cpuMem rom screen romSize saveOffs romKey screenH file
        fileLen = some
          ⟨fun i => if i < 0x10000 then file i else cpuMem i,
           (fun rp => if romKey = 0 then rp
            else fun i => if saveOffs ≤ i ∧ i < romSize
                          then rp i ^^^ romKey else rp i)
           (fun i => if saveOffs ≤ i ∧ i < saveOffs + 0x10000
                       then file (0x10000 + (i - saveOffs)) else rom i),
           fun i => if i < freadLen (fileLen - 0x10000 - 0x10000) (128 * screenH)
                    then file (0x10000 + 0x10000 + i) else screen i,
           true⟩ := by
      unfold loadSave
      simp only [hn1, hn2]
      rw [if_neg (by decide), if_neg (by decide)]
    rw [hck]
    refine ⟨by simp [hlen], fun r hr => ?_⟩
    injection hr with hr
    subst hr
    refine ⟨rfl, fun i hi => by simp [hi], fun i hi1 hi2 => ?_, fun i hi => ?_⟩
    · have hi3 : i < saveOffs + 0x10000 := by omega
      by_cases hk : romKey = 0
      · simp only [hk, ite_true, if_pos]
        simp [hi1, hi3, Nat.xor_zero]
      · simp only [hk, ite_false, if_neg]
        simp [hi1, hi2, hi3]
    · have hi2 : i < freadLen (fileLen - 0x10000 - 0x10000) (128 * screenH) := by
        rw [h3]
        exact hi
      simp [hi2]
  · have hfail : loadSave cpuMem rom screen romSize saveOffs romKey screenH file
        fileLen = none := by
      unfold loadSave
      by_cases h1 : freadLen fileLen 0x10000 = 0x10000
      · have h2 : freadLen (fileLen - 0x10000) (romSize - saveOffs) ≠ 0x10000 := by
          unfold freadLen at h1 ⊢
          omega
        simp only [h1]
        rw [if_neg (by decide), if_pos h2]
      · simp only [ne_eq]
        rw [if_pos h1]
    rw [hfail]
    exact ⟨by simpa using hlen, fun r hr => by cases hr⟩


/-- Witness for C8: a 0x30000-byte save file for a 4 MiB ROM loads
successfully. -/
theorem c8_load_save_witness :
    (loadSave (fun _ => 0) (fun _ => 0) (fun _ => 0) 0x400000 0x3f0000 1 128
      (fun _ => 7) 0x30000).isSome = true :=
  (c8_load_save (fun _ => 0) (fun _ => 0) (fun _ => 0) (fun _ => 7)
    0x400000 0x3f0000 1 128 0x30000 (by decide)).1.mpr (by decide)


/-! ## C6: image-intersection trap (`bios_10`, lines 548-579) -/

/-- Resource lookup (`get_image`, lines 367-377): resolves resource `id`
through the resource table and bounds-checks both the table entry and the
resource header; `none` models `ERR_EXIT`. -/
def getImage (rom : Nat → Nat) (romSize id : Nat) : Option Nat :=
  let resOffs := read24 rom 0 + id * 3
  if romSize < resOffs + 3 then none else
  let resOffs := read24 rom resOffs
  if romSize < resOffs + 4 then none else
  some resOffs

/-- Intersection trap `bios_10`: reads the two `(x, y, id, flip)` argument
groups at 0x100.. and 0x105.., looks up both images' width and height
bytes, and computes the new A register from the four wrap-around
comparisons; `none` models a failed resource lookup (`ERR_EXIT`). -/
def bios10 (rom : Nat → Nat) (romSize : Nat) (mem : Nat → Nat) : Option Nat :=
  let x1 : Int := mem 0x100
  let y1 : Int := mem 0x101
  let id1 := read16 mem 0x102
  let x2 : Int := mem 0x105
  let y2 : Int := mem 0x106
  let id2 := read16 mem 0x107
  match getImage rom romSize id1, getImage rom romSize id2 with
  | some r1, some r2 =>
    let w1 := rom r1
    let h1 := rom (r1 + 2)
    let w2 := rom r2
    let h2 := rom (r2 + 2)
    let cmp := 0
    let cmp := if iand255 (x2 - x1) < w1 then cmp ||| 1 else cmp
    let cmp := if iand255 (x1 - x2) < w2 then cmp ||| (1 + 4) else cmp
    let cmp := if iand255 (y2 - y1) < h1 then cmp ||| 2 else cmp
    let cmp := if iand255 (y1 - y2) < h2 then cmp ||| (2 + 8) else cmp
    if cmp &&& 3 ≠ 3 then some 0 else some 1
  | _, _ => none

/-- Helper: C's `(x - y) & 0xff` on byte-valued ints is wrap-around
subtraction modulo 256. -/
theorem iand255_sub (x y : Nat) (hx : x < 256) (hy : y < 256) :
    iand255 ((x : Int) - (y : Int)) = (x + 256 - y) % 256 := by
  unfold iand255
  omega

/-- C6: the intersect trap returns A = 1 iff the two image rectangles
overlap with coordinates taken modulo 256 — iff
`((x2-x1) mod 256 < w1 ∨ (x1-x2) mod 256 < w2)` and the same for the y
extents — and A = 0 otherwise. -/
theorem c6_intersect (rom mem : Nat → Nat) (romSize r1 r2 : Nat)
    (hg1 : getImage rom romSize (read16 mem 0x102) = some r1)
    (hg2 : getImage rom romSize (read16 mem 0x107) = some r2)
    (hx1 : mem 0x100 < 256) (hy1 : mem 0x101 < 256)
    (hx2 : mem 0x105 < 256) (hy2 : mem 0x106 < 256) :
    bios10 rom romSize mem =
      some (if ((mem 0x105 + 256 - mem 0x100) % 256 < rom r1 ∨
                (mem 0x100 + 256 - mem 0x105) % 256 < rom r2) ∧
               ((mem 0x106 + 256 - mem 0x101) % 256 < rom (r1 + 2) ∨
                (mem 0x101 + 256 - mem 0x106) % 256 < rom (r2 + 2))
            then 1 else 0) := by
  unfold bios10
  simp only [hg1, hg2]
  rw [iand255_sub _ _ hx2 hx1, iand255_sub _ _ hx1 hx2,
     iand255_sub _ _ hy2 hy1, iand255_sub _ _ hy1 hy2]
  by_cases c1 : (mem 0x105 + 256 - mem 0x100) % 256 < rom r1 <;>
    by_cases c2 : (mem 0x100 + 256 - mem 0x105) % 256 < rom r2 <;>
    by_cases c3 : (mem 0x106 + 256 - mem 0x101) % 256 < rom (r1 + 2) <;>
    by_cases c4 : (mem 0x101 + 256 - mem 0x106) % 256 < rom (r2 + 2) <;>
    simp [c1, c2, c3, c4] <;> decide

/-- Concrete memory for the C6 witness: two 4×4 images at overlapping
positions.  The resource table sits at offset 0 with both entries 0. -/
def memC6 : Nat → Nat := fun i =>
  if i = 0x100 then 10 else if i = 0x101 then 20
  else if i = 0x105 then 12 else if i = 0x106 then 22 else 0

/-- Concrete ROM for the C6 witness: every byte is 4, so both resources
resolve and have width = height = 4. -/
def romC6 : Nat → Nat := fun _ => 4

/-- Witness for C6: at the concrete state the two 4×4 rectangles at
(10, 20) and (12, 22) intersect, and the trap reports A = 1. -/
theorem c6_intersect_witness :
    bios10 romC6 0x400000 memC6 =
      some (if ((memC6 0x105 + 256 - memC6 0x100) % 256 < romC6 0x40404 ∨
                (memC6 0x100 + 256 - memC6 0x105) % 256 < romC6 0x40404) ∧
               ((memC6 0x106 + 256 - memC6 0x101) % 256 < romC6 (0x40404 + 2) ∨
                (memC6 0x101 + 256 - memC6 0x106) % 256 < romC6 (0x40404 + 2))
            then 1 else 0) :=
  c6_intersect romC6 memC6 0x400000 0x40404 0x40404 (by decide) (by decide)
    (by decide) (by decide) (by decide) (by decide)


/-! ## Serial-flash state machine (`flash_emu`, lines 655-755) -/

/-- Flash protocol states (`FLASH_OFF` … `FLASH_CMD2`). -/
def FLASH_OFF : Nat := 0

/-- Flash state: a write to 0x12 with value 0 arms the machine. -/
def FLASH_READY : Nat := 1

/-- Flash state: shifting in the command byte. -/
def FLASH_CMD : Nat := 2

/-- Flash state: shifting in command arguments or data. -/
def FLASH_CMD2 : Nat := 3

/-- The `flash_t` structure: protocol state, current command, bit counter,
flags (bit 1 = write enable), three argument bytes and the byte address. -/
structure Flash where
  state : Nat
  cmd : Nat
  narg : Nat
  flags : Nat
  args : Nat → Nat
  addr : Nat

/-- Bit-shifting phase of `flash_emu` (the `if (i)` block, lines 682-691):
each data byte must encode one bit twice (clock low then high); odd
counts shift the bit into the current argument byte, even counts verify
the repeated bit.  Returns the updated state and whether the argument
phase has finished (counter reached zero, so the command dispatches).
`none` models `ERR_EXIT`. -/
def flashShift (f : Flash) (data : Nat) : Option (Flash × Bool) :=
  let i := f.narg
  if i = 0 then some (f, true) else
  if ((data &&& 0xfffffffb) ^^^ (i &&& 1)) ≠ 2 then none else
  let i := i - 1
  if i &&& 1 ≠ 0 then
    let f := {f with narg := i
                     args := upd f.args (i >>> 4)
                       ((f.args (i >>> 4) <<< 1 ||| data >>> 2) % 256)}
    some (f, i = 0)
  else
    if ((data >>> 2) ^^^ f.args (i >>> 4)) &&& 1 ≠ 0 then none
    else some ({f with narg := i}, i = 0)

/-- Command dispatch of `flash_emu` (lines 693-754): in CMD state the
accumulated byte selects the command; in CMD2 state Sector Erase and Page
Program run with address/alignment/write-enable checks.  Returns the new
flash state and the (possibly programmed) ROM. `none` models `ERR_EXIT`. -/
def flashDispatch (saveOffs romSize romKey : Nat) (f : Flash)
    (rom : Nat → Nat) : Option (Flash × (Nat → Nat)) :=
  if f.state = FLASH_CMD then
    let cmd := f.args 0
    let f := {f with cmd := cmd}
    if cmd = 0x50 then some ({f with state := FLASH_OFF}, rom)
    else if cmd = 0x06 ∨ cmd = 0x04 then
      some ({f with flags := ((f.flags &&& 0xfffffffd) ||| (cmd &&& 2)) % 256
                    state := FLASH_OFF}, rom)
    else if cmd = 0x05 ∨ cmd = 0x01 then
      some ({f with state := FLASH_CMD2, narg := 16}, rom)
    else if cmd = 0x02 ∨ cmd = 0x20 then
      some ({f with state := FLASH_CMD2, narg := 48, addr := 0xffffffff}, rom)
    else none
  else
    if f.cmd = 0x20 then
      let addr := read24 f.args 0
      if addr &&& 0xfff ≠ 0 then none
      else if addr < saveOffs ∨ romSize ≤ addr then none
      else if f.flags &&& 2 = 0 then some ({f with state := FLASH_OFF}, rom)
      else some ({f with state := FLASH_OFF},
        fun i => if addr ≤ i ∧ i < addr + 0x1000 then 0xff ^^^ romKey else rom i)
    else if f.cmd = 0x02 then
      if f.addr = 0xffffffff then
        let addr := read24 f.args 0
        if addr &&& 0xff ≠ 0 then none
        else if addr < saveOffs ∨ romSize ≤ addr then none
        else if f.flags &&& 2 = 0 then
          some ({f with addr := addr, state := FLASH_OFF}, rom)
        else some ({f with addr := addr, narg := 16}, rom)
      else
        let addr := f.addr
        let rom2 := upd rom addr (f.args 0 ^^^ romKey)
        if (addr + 1) &&& 0xff ≠ 0 then
          some ({f with addr := addr + 1, narg := 16}, rom2)
        else some ({f with addr := addr + 1, state := FLASH_OFF}, rom2)
    else some ({f with state := FLASH_OFF}, rom)

/-- One invocation of `flash_emu` after a CPU store to address 0x02 wrote
`data` there: ignores the write when OFF, aborts the protocol when bit 3
of the data is set, arms on a zero byte in READY, and otherwise shifts
bits and possibly dispatches the completed command. -/
def flashEmu (saveOffs romSize romKey : Nat) (f : Flash) (rom : Nat → Nat)
    (data : Nat) : Option (Flash × (Nat → Nat)) :=
  if f.state = FLASH_OFF then some (f, rom) else
  if data &&& 8 ≠ 0 then some ({f with state := FLASH_OFF}, rom) else
  if f.state = FLASH_READY then
    (if data = 0 then some ({f with state := FLASH_CMD, narg := 16}, rom)
     else some (f, rom))
  else
    match flashShift f data with
    | none => none
    | some (f1, cont) =>
      if cont then flashDispatch saveOffs romSize romKey f1 rom
      else some (f1, rom)

/-! ## Host-event pump (`game_event`, lines 1296-1349) -/

/-- Host key/window events as returned by `window_event` (the platform
backend is out of scope; the list holds the events pending this poll,
and its end is `EVENT_EMPTY`). -/
inductive GEv where
  | press (key : Int)
  | release (key : Int)
  | quit

/-- Platform key codes (`SYSKEY_*`, backend-specific values) and the
per-model `keymap` of five device-button bit indices. -/
structure KeyCfg where
  keyLeft : Int
  keyDown : Int
  keyRight : Int
  keyDelete : Int
  keyPageDown : Int
  keyEscape : Int
  keyA : Int
  keymap : Nat → Nat

/-- Key classification (the inner `switch (key)` of `game_event`): maps a
host key code to a device-button bit index, 17 for the reset key `r`, or
−1 for an unmapped key. -/
def classifyKey (cfg : KeyCfg) (key : Int) : Int :=
  if key = cfg.keyLeft ∨ key = cfg.keyA + 97 then cfg.keymap 0
  else if key = cfg.keyDown ∨ key = cfg.keyA + 115 then cfg.keymap 1
  else if key = cfg.keyRight ∨ key = cfg.keyA + 100 then cfg.keymap 2
  else if key = cfg.keyDelete ∨ key = cfg.keyA + 113 then cfg.keymap 3
  else if key = cfg.keyPageDown ∨ key = cfg.keyA + 101 then cfg.keymap 4
  else if key = cfg.keyA + 114 then 17
  else -1

/-- The `game_event` pump: processes pending events in order; an Escape
press or a quit event sets kill bit 16 and returns immediately; a mapped
key press sets its button bit and a release clears it, via
`keys = (keys & ~(1 << k)) | bit`. -/
def gameEvent (cfg : KeyCfg) : List GEv → Nat → Nat
  | [], keys => keys
  | GEv.quit :: _, keys => keys ||| 1 <<< 16
  | GEv.press key :: rest, keys =>
    if key = cfg.keyEscape then keys ||| 1 <<< 16
    else
      let key2 := classifyKey cfg key
      if 0 ≤ key2 then
        let m := 1 <<< key2.toNat
        gameEvent cfg rest ((keys &&& (0xffffffff ^^^ m)) ||| m)
      else gameEvent cfg rest keys
  | GEv.release key :: rest, keys =>
    let key2 := classifyKey cfg key
    if 0 ≤ key2 then
      let m := 1 <<< key2.toNat
      gameEvent cfg rest ((keys &&& (0xffffffff ^^^ m)) ||| 0)
    else gameEvent cfg rest keys

/-! ## CPU core (`run_emu`, lines 759-1275): state, decode, one step -/

/-- One frame of the ROM-paging stack (`frame_t`; the unused `type` field
is omitted). -/
structure Frame where
  addr : Nat
  size : Nat

/-- The in-loop CPU state of `run_emu`: registers, the packed P byte (for
bits outside C/Z/V/N), the unpacked flag locals `zflag`/`nflag`/`vflag`
(byte patterns) and `cflag` (carry iff ≥ 0x100), the 64 KiB memory, and
the local 0x00-read counter `input_timer`. -/
structure Emu where
  pc : Nat
  a : Nat
  x : Nat
  y : Nat
  sp : Nat
  flags : Nat
  zf : Nat
  nf : Nat
  vf : Nat
  cf : Nat
  inputTimer : Nat
  mem : Nat → Nat

/-- System context (`sysctx_t`) fields the CPU step touches. -/
structure Sys where
  rom : Nat → Nat
  romSize : Nat
  saveOffs : Nat
  romKey : Nat
  keys : Nat
  frames : Nat → Frame
  frameDepth : Nat
  flash : Flash
  events : List GEv
  cfg : KeyCfg

/-- Result of one iteration of the `run_emu` loop: continue, leave the
loop (`break` / `goto end`, so `run_emu` returns), die (`ERR_EXIT`), or
leave the modeled fragment (BIOS traps and opcodes this development does
not need). -/
inductive StepOut where
  | next (e : Emu) (s : Sys)
  | halt (e : Emu) (s : Sys)
  | fatal
  | unmodeled

/-- Addressing modes (`MOD_*`).  `mx`/`my` are the X and Y register
operands; `ab` is absolute; `MOD_ZR` of BBR/BBS shares `z`. -/
inductive Mode where
  | nul | imm | acc | mx | my | z | zx | zy | zi | zxi | ziy | ab | ax | ay | rel
deriving DecidableEq

/-- Operand location: none, a register, a memory cell at effective address
`o` (`o ≥ 0` in the source, subject to the read traps), an immediate
(the source sets `p = &NEXT` but keeps `o = -1`), or a relative branch
displacement byte. -/
inductive Loc where
  | nothing
  | regA
  | regX
  | regY
  | mem (o : Nat)
  | imm (addr : Nat)
  | rel (t : Nat)
deriving DecidableEq

/-- The 256-entry `op_mod` table: addressing mode and store flag (the
`S(...)` rows set bit 7 in the source). -/
def opMod (op : Nat) : Mode × Bool :=
  match op with
  | 0x00 => (.nul, false) -- BRK
  | 0x01 => (.zxi, false) -- ORA
  | 0x02 => (.nul, false) -- ---
  | 0x03 => (.nul, false) -- ---
  | 0x04 => (.z, false) -- TSB
  | 0x05 => (.z, false) -- ORA
  | 0x06 => (.z, false) -- ASL
  | 0x07 => (.z, false) -- RMB
  | 0x08 => (.nul, false) -- PHP
  | 0x09 => (.imm, false) -- ORA
  | 0x0A => (.acc, false) -- ASL
  | 0x0B => (.nul, false) -- ---
  | 0x0C => (.ab, false) -- TSB
  | 0x0D => (.ab, false) -- ORA
  | 0x0E => (.ab, false) -- ASL
  | 0x0F => (.z, false) -- BBR
  | 0x10 => (.rel, false) -- BPL
  | 0x11 => (.ziy, false) -- ORA
  | 0x12 => (.zi, false) -- ORA
  | 0x13 => (.nul, false) -- ---
  | 0x14 => (.z, false) -- TRB
  | 0x15 => (.zx, false) -- ORA
  | 0x16 => (.zx, false) -- ASL
  | 0x17 => (.z, false) -- RMB
  | 0x18 => (.nul, false) -- CLC
  | 0x19 => (.ay, false) -- ORA
  | 0x1A => (.acc, false) -- INC
  | 0x1B => (.nul, false) -- ---
  | 0x1C => (.ab, false) -- TRB
  | 0x1D => (.ax, false) -- ORA
  | 0x1E => (.ax, false) -- ASL
  | 0x1F => (.z, false) -- BBR
  | 0x20 => (.imm, false) -- JSR
  | 0x21 => (.zxi, false) -- AND
  | 0x22 => (.nul, false) -- ---
  | 0x23 => (.nul, false) -- ---
  | 0x24 => (.z, false) -- BIT
  | 0x25 => (.z, false) -- AND
  | 0x26 => (.z, false) -- ROL
  | 0x27 => (.z, false) -- RMB
  | 0x28 => (.nul, false) -- PLP
  | 0x29 => (.imm, false) -- AND
  | 0x2A => (.acc, false) -- ROL
  | 0x2B => (.nul, false) -- ---
  | 0x2C => (.ab, false) -- BIT
  | 0x2D => (.ab, false) -- AND
  | 0x2E => (.ab, false) -- ROL
  | 0x2F => (.z, false) -- BBR
  | 0x30 => (.rel, false) -- BMI
  | 0x31 => (.ziy, false) -- AND
  | 0x32 => (.zi, false) -- AND
  | 0x33 => (.nul, false) -- ---
  | 0x34 => (.z, false) -- BIT
  | 0x35 => (.zx, false) -- AND
  | 0x36 => (.zx, false) -- ROL
  | 0x37 => (.z, false) -- RMB
  | 0x38 => (.nul, false) -- SEC
  | 0x39 => (.ay, false) -- AND
  | 0x3A => (.acc, false) -- DEC
  | 0x3B => (.nul, false) -- ---
  | 0x3C => (.ax, false) -- BIT
  | 0x3D => (.ax, false) -- AND
  | 0x3E => (.ax, false) -- ROL
  | 0x3F => (.z, false) -- BBR
  | 0x40 => (.nul, false) -- RTI
  | 0x41 => (.zxi, false) -- EOR
  | 0x42 => (.nul, false) -- ---
  | 0x43 => (.nul, false) -- ---
  | 0x44 => (.nul, false) -- ---
  | 0x45 => (.z, false) -- EOR
  | 0x46 => (.z, false) -- LSR
  | 0x47 => (.z, false) -- RMB
  | 0x48 => (.acc, false) -- PHA
  | 0x49 => (.imm, false) -- EOR
  | 0x4A => (.acc, false) -- LSR
  | 0x4B => (.nul, false) -- ---
  | 0x4C => (.imm, false) -- JMP
  | 0x4D => (.ab, false) -- EOR
  | 0x4E => (.ab, false) -- LSR
  | 0x4F => (.z, false) -- BBR
  | 0x50 => (.rel, false) -- BVC
  | 0x51 => (.ziy, false) -- EOR
  | 0x52 => (.zi, false) -- EOR
  | 0x53 => (.nul, false) -- ---
  | 0x54 => (.nul, false) -- ---
  | 0x55 => (.zx, false) -- EOR
  | 0x56 => (.zx, false) -- LSR
  | 0x57 => (.z, false) -- RMB
  | 0x58 => (.nul, false) -- CLI
  | 0x59 => (.ay, false) -- EOR
  | 0x5A => (.my, false) -- PHY
  | 0x5B => (.nul, false) -- ---
  | 0x5C => (.nul, false) -- ---
  | 0x5D => (.ax, false) -- EOR
  | 0x5E => (.ax, false) -- LSR
  | 0x5F => (.z, false) -- BBR
  | 0x60 => (.nul, false) -- RTS
  | 0x61 => (.zxi, false) -- ADC
  | 0x62 => (.nul, false) -- ---
  | 0x63 => (.nul, false) -- ---
  | 0x64 => (.z, true) -- STZ
  | 0x65 => (.z, false) -- ADC
  | 0x66 => (.z, false) -- ROR
  | 0x67 => (.z, false) -- RMB
  | 0x68 => (.acc, false) -- PLA
  | 0x69 => (.imm, false) -- ADC
  | 0x6A => (.acc, false) -- ROR
  | 0x6B => (.nul, false) -- ---
  | 0x6C => (.ab, false) -- JMP
  | 0x6D => (.ab, false) -- ADC
  | 0x6E => (.ab, false) -- ROR
  | 0x6F => (.z, false) -- BBR
  | 0x70 => (.rel, false) -- BVS
  | 0x71 => (.ziy, false) -- ADC
  | 0x72 => (.zi, false) -- ADC
  | 0x73 => (.nul, false) -- ---
  | 0x74 => (.zx, true) -- STZ
  | 0x75 => (.zx, false) -- ADC
  | 0x76 => (.zx, false) -- ROR
  | 0x77 => (.z, false) -- RMB
  | 0x78 => (.nul, false) -- SEI
  | 0x79 => (.ay, false) -- ADC
  | 0x7A => (.my, false) -- PLY
  | 0x7B => (.nul, false) -- ---
  | 0x7C => (.ax, false) -- JMP
  | 0x7D => (.ax, false) -- ADC
  | 0x7E => (.ax, false) -- ROR
  | 0x7F => (.z, false) -- BBR
  | 0x80 => (.rel, false) -- BRA
  | 0x81 => (.zxi, true) -- STA
  | 0x82 => (.nul, false) -- ---
  | 0x83 => (.nul, false) -- ---
  | 0x84 => (.z, true) -- STY
  | 0x85 => (.z, true) -- STA
  | 0x86 => (.z, true) -- STX
  | 0x87 => (.z, false) -- SMB
  | 0x88 => (.my, false) -- DEY
  | 0x89 => (.imm, false) -- BIT
  | 0x8A => (.nul, false) -- TXA
  | 0x8B => (.nul, false) -- ---
  | 0x8C => (.ab, true) -- STY
  | 0x8D => (.ab, true) -- STA
  | 0x8E => (.ab, true) -- STX
  | 0x8F => (.z, false) -- BBS
  | 0x90 => (.rel, false) -- BCC
  | 0x91 => (.ziy, true) -- STA
  | 0x92 => (.zi, true) -- STA
  | 0x93 => (.nul, false) -- ---
  | 0x94 => (.zx, true) -- STY
  | 0x95 => (.zx, true) -- STA
  | 0x96 => (.zy, true) -- STX
  | 0x97 => (.z, false) -- SMB
  | 0x98 => (.nul, false) -- TYA
  | 0x99 => (.ay, true) -- STA
  | 0x9A => (.nul, false) -- TXS
  | 0x9B => (.nul, false) -- ---
  | 0x9C => (.ab, true) -- STZ
  | 0x9D => (.ax, true) -- STA
  | 0x9E => (.ax, true) -- STZ
  | 0x9F => (.z, false) -- BBS
  | 0xA0 => (.imm, false) -- LDY
  | 0xA1 => (.zxi, false) -- LDA
  | 0xA2 => (.imm, false) -- LDX
  | 0xA3 => (.nul, false) -- ---
  | 0xA4 => (.z, false) -- LDY
  | 0xA5 => (.z, false) -- LDA
  | 0xA6 => (.z, false) -- LDX
  | 0xA7 => (.z, false) -- SMB
  | 0xA8 => (.nul, false) -- TAY
  | 0xA9 => (.imm, false) -- LDA
  | 0xAA => (.nul, false) -- TAX
  | 0xAB => (.nul, false) -- ---
  | 0xAC => (.ab, false) -- LDY
  | 0xAD => (.ab, false) -- LDA
  | 0xAE => (.ab, false) -- LDX
  | 0xAF => (.z, false) -- BBS
  | 0xB0 => (.rel, false) -- BCS
  | 0xB1 => (.ziy, false) -- LDA
  | 0xB2 => (.zi, false) -- LDA
  | 0xB3 => (.nul, false) -- ---
  | 0xB4 => (.zx, false) -- LDY
  | 0xB5 => (.zx, false) -- LDA
  | 0xB6 => (.zy, false) -- LDX
  | 0xB7 => (.z, false) -- SMB
  | 0xB8 => (.nul, false) -- CLV
  | 0xB9 => (.ay, false) -- LDA
  | 0xBA => (.nul, false) -- TSX
  | 0xBB => (.nul, false) -- ---
  | 0xBC => (.ax, false) -- LDY
  | 0xBD => (.ax, false) -- LDA
  | 0xBE => (.ay, false) -- LDX
  | 0xBF => (.z, false) -- BBS
  | 0xC0 => (.imm, false) -- CPY
  | 0xC1 => (.zxi, false) -- CMP
  | 0xC2 => (.nul, false) -- ---
  | 0xC3 => (.nul, false) -- ---
  | 0xC4 => (.z, false) -- CPY
  | 0xC5 => (.z, false) -- CMP
  | 0xC6 => (.z, false) -- DEC
  | 0xC7 => (.z, false) -- SMB
  | 0xC8 => (.my, false) -- INY
  | 0xC9 => (.imm, false) -- CMP
  | 0xCA => (.mx, false) -- DEX
  | 0xCB => (.nul, false) -- WAI
  | 0xCC => (.ab, false) -- CPY
  | 0xCD => (.ab, false) -- CMP
  | 0xCE => (.ab, false) -- DEC
  | 0xCF => (.z, false) -- BBS
  | 0xD0 => (.rel, false) -- BNE
  | 0xD1 => (.ziy, false) -- CMP
  | 0xD2 => (.zi, false) -- CMP
  | 0xD3 => (.nul, false) -- ---
  | 0xD4 => (.nul, false) -- ---
  | 0xD5 => (.zx, false) -- CMP
  | 0xD6 => (.zx, false) -- DEC
  | 0xD7 => (.z, false) -- SMB
  | 0xD8 => (.nul, false) -- CLD
  | 0xD9 => (.ay, false) -- CMP
  | 0xDA => (.mx, false) -- PHX
  | 0xDB => (.nul, false) -- STP
  | 0xDC => (.nul, false) -- ---
  | 0xDD => (.ax, false) -- CMP
  | 0xDE => (.ax, false) -- DEC
  | 0xDF => (.z, false) -- BBS
  | 0xE0 => (.imm, false) -- CPX
  | 0xE1 => (.zxi, false) -- SBC
  | 0xE2 => (.nul, false) -- ---
  | 0xE3 => (.nul, false) -- ---
  | 0xE4 => (.z, false) -- CPX
  | 0xE5 => (.z, false) -- SBC
  | 0xE6 => (.z, false) -- INC
  | 0xE7 => (.z, false) -- SMB
  | 0xE8 => (.mx, false) -- INX
  | 0xE9 => (.imm, false) -- SBC
  | 0xEA => (.nul, false) -- NOP
  | 0xEB => (.nul, false) -- ---
  | 0xEC => (.ab, false) -- CPX
  | 0xED => (.ab, false) -- SBC
  | 0xEE => (.ab, false) -- INC
  | 0xEF => (.z, false) -- BBS
  | 0xF0 => (.rel, false) -- BEQ
  | 0xF1 => (.ziy, false) -- SBC
  | 0xF2 => (.zi, false) -- SBC
  | 0xF3 => (.nul, false) -- ---
  | 0xF4 => (.nul, false) -- ---
  | 0xF5 => (.zx, false) -- SBC
  | 0xF6 => (.zx, false) -- INC
  | 0xF7 => (.z, false) -- SMB
  | 0xF8 => (.nul, false) -- SED
  | 0xF9 => (.ay, false) -- SBC
  | 0xFA => (.mx, false) -- PLX
  | 0xFB => (.nul, false) -- ---
  | 0xFC => (.nul, false) -- ---
  | 0xFD => (.ax, false) -- SBC
  | 0xFE => (.ax, false) -- INC
  | 0xFF => (.z, false) -- BBS
  | _ => (.nul, false)

/-- Effective-address resolution (the `switch (t)` over addressing modes,
lines 872-905).  `pc` has already been incremented past the opcode; every
memory fetch masks the address with 0xFFFF as `NEXT` does. -/
def resolve (m : Mode) (e : Emu) (pc : Nat) : Loc × Nat :=
  match m with
  | .nul => (.nothing, pc)
  | .imm => (.imm (pc &&& 0xffff), pc + 1)
  | .acc => (.regA, pc)
  | .mx => (.regX, pc)
  | .my => (.regY, pc)
  | .z => (.mem (e.mem (pc &&& 0xffff)), pc + 1)
  | .zx => (.mem ((e.mem (pc &&& 0xffff) + e.x) &&& 0xff), pc + 1)
  | .zy => (.mem ((e.mem (pc &&& 0xffff) + e.y) &&& 0xff), pc + 1)
  | .zi =>
    let z := e.mem (pc &&& 0xffff)
    (.mem (e.mem z ||| e.mem ((z + 1) &&& 0xff) <<< 8), pc + 1)
  | .zxi =>
    let z := e.mem (pc &&& 0xffff) + e.x
    (.mem (e.mem (z &&& 0xff) ||| e.mem ((z + 1) &&& 0xff) <<< 8), pc + 1)
  | .ziy =>
    let z := e.mem (pc &&& 0xffff)
    let ind := e.mem z ||| e.mem ((z + 1) &&& 0xff) <<< 8
    (.mem ((ind + e.y) &&& 0xffff), pc + 1)
  | .ab =>
    (.mem (e.mem (pc &&& 0xffff) ||| e.mem ((pc + 1) &&& 0xffff) <<< 8), pc + 2)
  | .ax =>
    (.mem (((e.mem (pc &&& 0xffff) ||| e.mem ((pc + 1) &&& 0xffff) <<< 8) + e.x)
      &&& 0xffff), pc + 2)
  | .ay =>
    (.mem (((e.mem (pc &&& 0xffff) ||| e.mem ((pc + 1) &&& 0xffff) <<< 8) + e.y)
      &&& 0xffff), pc + 2)
  | .rel => (.rel (e.mem (pc &&& 0xffff)), pc + 1)

/-- The memory-read traps (lines 919-935), applied to every instruction
with a memory operand that is not a store: a read of 0x00 bumps
`input_timer`, runs the event pump every 16th read, and stores the
negated key bitmask at 0x00; a read of 0x02 clears bit 1 in place; reads
of 0x14, 0x7B, 0x93 set bits 6, 3, 7 in place.  Returns the new memory,
keys, timer and pending events. -/
def readTrap (o : Nat) (mem : Nat → Nat) (keys timer : Nat)
    (events : List GEv) (cfg : KeyCfg) :
    (Nat → Nat) × Nat × Nat × List GEv :=
  if o = 0x00 then
    let timer1 := timer + 1
    if 16 ≤ timer1 then
      let keys1 := gameEvent cfg events keys
      (upd mem 0 ((0xffffffff ^^^ keys1) % 256), keys1, 0, [])
    else
      (upd mem 0 ((0xffffffff ^^^ keys) % 256), keys, timer1, events)
  else if o = 0x02 then
    (upd mem 2 ((mem 2 &&& 0xfffffffd) % 256), keys, timer, events)
  else if o = 0x14 then
    (upd mem 0x14 ((mem 0x14 ||| 1 <<< 6) % 256), keys, timer, events)
  else if o = 0x7b then
    (upd mem 0x7b ((mem 0x7b ||| 1 <<< 3) % 256), keys, timer, events)
  else if o = 0x93 then
    (upd mem 0x93 ((mem 0x93 ||| 1 <<< 7) % 256), keys, timer, events)
  else (mem, keys, timer, events)

/-- Opcode groups of the modeled fragment (the `case` labels of the big
`switch (op)`). -/
def isLDA (op : Nat) : Bool :=
  op == 0xa9 || op == 0xa5 || op == 0xad || op == 0xb5 || op == 0xbd ||
  op == 0xa1 || op == 0xb1 || op == 0xb2 || op == 0xb9

/-- LDX opcodes. -/
def isLDX (op : Nat) : Bool :=
  op == 0xa2 || op == 0xa6 || op == 0xae || op == 0xb6 || op == 0xbe

/-- LDY opcodes. -/
def isLDY (op : Nat) : Bool :=
  op == 0xa0 || op == 0xa4 || op == 0xac || op == 0xb4 || op == 0xbc

/-- STA opcodes. -/
def isSTA (op : Nat) : Bool :=
  op == 0x85 || op == 0x8d || op == 0x95 || op == 0x9d ||
  op == 0x81 || op == 0x91 || op == 0x92 || op == 0x99

/-- STX opcodes. -/
def isSTX (op : Nat) : Bool := op == 0x86 || op == 0x8e || op == 0x96

/-- STY opcodes. -/
def isSTY (op : Nat) : Bool := op == 0x84 || op == 0x8c || op == 0x94

/-- STZ opcodes. -/
def isSTZ (op : Nat) : Bool := op == 0x64 || op == 0x74 || op == 0x9c || op == 0x9e

/-- Sets the Z and N flag locals from the result byte (`zflag = t;
nflag = t;`). -/
def setZN (t : Nat) (e : Emu) : Emu := {e with zf := t % 256, nf := t % 256}

/-- Reads the operand (`*p`). -/
def readLoc (loc : Loc) (e : Emu) : Nat :=
  match loc with
  | .mem o => e.mem o
  | .imm a => e.mem a
  | .regA => e.a
  | .regX => e.x
  | .regY => e.y
  | _ => 0

/-- Writeback of a store plus the memory-write hooks (lines 1242-1265):
writing 0x02 drives the flash machine, 0x12 arms or disarms it, a zero
stored at 0x00 is power-off (sets kill bits 18 and 20 and leaves the
loop, so `run_emu` returns), and 0x28 at 0x8000 is display-off (sets
kill bit 20). -/
def execStore (t o pc2 : Nat) (e : Emu) (s : Sys) : StepOut :=
  let e1 := {e with mem := upd e.mem o (t % 256), pc := pc2}
  if o = 0x02 then
    match flashEmu s.saveOffs s.romSize s.romKey s.flash e1.mem (e1.mem 0x02) with
    | none => .fatal
    | some (f, rom2) => .next e1 {s with flash := f, rom := rom2}
  else if o = 0x12 then
    .next e1 {s with flash := {s.flash with
      state := if t ≠ 0 then FLASH_OFF else FLASH_READY}}
  else if o = 0x00 then
    if t = 0 then .halt e1 {s with keys := s.keys ||| (1 <<< 18 ||| 1 <<< 20)}
    else .next e1 s
  else if o = 0x8000 then
    if t = 0x28 then .next e1 {s with keys := s.keys ||| 1 <<< 20}
    else .next e1 s
  else .next e1 s

/-- Instruction dispatch for the modeled fragment: loads set their target
register and Z/N; stores write through `execStore`.  All other opcodes
leave the fragment. -/
def dispatch (op : Nat) (loc : Loc) (pc2 : Nat) (e : Emu) (s : Sys) : StepOut :=
  if isLDA op then
    let t := readLoc loc e
    .next (setZN t {e with a := t % 256, pc := pc2}) s
  else if isLDX op then
    let t := readLoc loc e
    .next (setZN t {e with x := t % 256, pc := pc2}) s
  else if isLDY op then
    let t := readLoc loc e
    .next (setZN t {e with y := t % 256, pc := pc2}) s
  else if isSTA op then
    match loc with
    | .mem o => execStore e.a o pc2 e s
    | _ => .unmodeled
  else if isSTX op then
    match loc with
    | .mem o => execStore e.x o pc2 e s
    | _ => .unmodeled
  else if isSTY op then
    match loc with
    | .mem o => execStore e.y o pc2 e s
    | _ => .unmodeled
  else if isSTZ op then
    match loc with
    | .mem o => execStore 0 o pc2 e s
    | _ => .unmodeled
  else .unmodeled

/-- Operand phase: the read traps fire for every memory operand of a
non-store instruction (`o >= 0 && !(m & 0x80)`), then the instruction
executes. -/
def exec (op : Nat) (isStore : Bool) (loc : Loc) (pc2 : Nat) (e : Emu)
    (s : Sys) : StepOut :=
  match loc, isStore with
  | .mem o, false =>
    let r := readTrap o e.mem s.keys e.inputTimer s.events s.cfg
    dispatch op loc pc2 {e with mem := r.1, inputTimer := r.2.2.1}
      {s with keys := r.2.1, events := r.2.2.2}
  | _, _ => dispatch op loc pc2 e s

/-- ROM call through the trap addresses 0x60DE (normal, `tailCall` false)
and 0x6052 (tail call), lines 833-861: validates the callee (frame size
below 0x500, within the ROM, depth below 16, nonempty stack for a tail
call), pushes or replaces the top frame, for a normal call pushes the
fake return address 0x6FFF on the 6502 stack and drops SP by 2, copies
the callee window from ROM to 0x300 and resumes there. -/
def romCall (tailCall : Bool) (e : Emu) (s : Sys) : StepOut :=
  let addr := read24 e.mem 0x80
  let fsize := read16 e.mem 0x83 <<< 1
  if 0x500 ≤ fsize then .fatal
  else if s.romSize < addr + fsize then .fatal
  else if 16 ≤ s.frameDepth then .fatal
  else if tailCall = true ∧ s.frameDepth = 0 then .fatal
  else
    let depth := if tailCall then s.frameDepth - 1 else s.frameDepth
    let s1 := {s with
      frames := fun i => if i = depth then ⟨addr, fsize⟩ else s.frames i
      frameDepth := depth + 1}
    let e1 :=
      if tailCall then e
      else
        {e with sp := (e.sp + 254) % 256
                mem := upd (upd e.mem (0x100 + e.sp) ((0x6fff >>> 8) % 256))
                  (0x100 + ((e.sp + 255) % 256)) (0x6fff % 256)}
    let e2 := {e1 with
      mem := fun i => if 0x300 ≤ i ∧ i < 0x300 + fsize
                      then s.rom (addr + (i - 0x300)) else e1.mem i
      pc := 0x300}
    .next e2 s1

/-- The trap region `pc ≥ 0x6000`: the BIOS entry 0x6000, ROM read 0x6003
and frame return 0x7000 are outside the modeled fragment; 0x60DE and
0x6052 are the ROM calls; any other pc is fatal
(`unexpected pc 0x%04x`). -/
def sysArea (pc0 : Nat) (e : Emu) (s : Sys) : StepOut :=
  if pc0 = 0x6000 ∨ pc0 = 0x6003 ∨ pc0 = 0x7000 then .unmodeled
  else if pc0 = 0x60de ∨ pc0 = 0x6052 then romCall (pc0 == 0x6052) e s
  else .fatal

/-- One iteration of the `run_emu` for-loop: mask the pc, service the trap
region, or fetch, decode, resolve the operand, apply the read traps and
execute. -/
def step (e : Emu) (s : Sys) : StepOut :=
  let pc0 := e.pc &&& 0xffff
  if 0x6000 ≤ pc0 then sysArea pc0 e s
  else
    let op := e.mem pc0
    let md := opMod op
    let rs := resolve md.1 e (pc0 + 1)
    exec op md.2 rs.1 rs.2 e s

/-- Outer game-loop guard (line 1400, `while (!(sys->keys & 3 << 16))`):
the loop keeps running while neither bit 16 nor bit 17 is set. -/
def gameLoopContinues (keys : Nat) : Bool := keys &&& (3 <<< 16) == 0

/-- Reset-path test after the loop (line 1445): reset rather than exit
when bit 16 is clear. -/
def resetPath (keys : Nat) : Bool := keys &&& (1 <<< 16) == 0


/-! ## C2: ROM call at 0x60DE -/

/-- C2: whenever the CPU reaches PC = 0x60DE with a valid callee (frame
size `2 * u16@0x83` below 0x500, `addr + size` within the ROM, depth
below 16), one step pushes a new frame, copies the callee bytes so that
memory `[0x300, 0x300+size)` equals ROM `[addr, addr+size)`, drops SP by
2 (with 8-bit wrap), leaves the fake return address 0x6FFF on the 6502
stack (high byte 0x6F at `0x100+SP`, low byte 0xFF at
`0x100+((SP-1) & 0xFF)`), and resumes at PC = 0x300; violating any of
the three constraints is fatal. -/
theorem c2_rom_call (e : Emu) (s : Sys)
    (hpc : e.pc &&& 0xffff = 0x60de) (hsp : e.sp < 256) :
    (read16 e.mem 0x83 <<< 1 < 0x500 →
     read24 e.mem 0x80 + read16 e.mem 0x83 <<< 1 ≤ s.romSize →
     s.frameDepth < 16 →
     ∃ e2 s1, step e s = .next e2 s1 ∧
       e2.pc = 0x300 ∧
       (∀ i, i < read16 e.mem 0x83 <<< 1 →
         e2.mem (0x300 + i) = s.rom (read24 e.mem 0x80 + i)) ∧
       e2.sp = (e.sp + 254) % 256 ∧
       e2.mem (0x100 + e.sp) = 0x6f ∧
       e2.mem (0x100 + (e.sp + 255) % 256) = 0xff ∧
       s1.frameDepth = s.frameDepth + 1 ∧
       s1.frames s.frameDepth =
         ⟨read24 e.mem 0x80, read16 e.mem 0x83 <<< 1⟩) ∧
    ((0x500 ≤ read16 e.mem 0x83 <<< 1 ∨
      s.romSize < read24 e.mem 0x80 + read16 e.mem 0x83 <<< 1 ∨
      16 ≤ s.frameDepth) →
     step e s = .fatal) := by
  have hstep : step e s = romCall false e s := by
    simp only [step, hpc]
    norm_num [sysArea]
    rfl
  constructor
  · intro hf hb hd
    rw [hstep]
    unfold romCall
    rw [if_neg (by omega), if_neg (by omega), if_neg (by omega),
       if_neg (by simp)]
    simp only [Bool.false_eq_true, if_false, upd]
    refine ⟨_, _, rfl, rfl, ?_, rfl, ?_, ?_, rfl, ?_⟩
    · intro i hi
      show ite _ _ _ = _
      rw [if_pos (⟨by omega, by omega⟩ :
        0x300 ≤ 0x300 + i ∧ 0x300 + i < 0x300 + read16 e.mem 0x83 <<< 1)]
      congr 1
      omega
    · show ite _ _ _ = _
      rw [if_neg (show ¬(0x300 ≤ 0x100 + e.sp ∧
          0x100 + e.sp < 0x300 + read16 e.mem 0x83 <<< 1) by omega),
        if_neg (show ¬(0x100 + e.sp = 0x100 + (e.sp + 255) % 256) by omega),
        if_pos (show 0x100 + e.sp = 0x100 + e.sp from rfl)]
      decide
    · show ite _ _ _ = _
      rw [if_neg (show ¬(0x300 ≤ 0x100 + (e.sp + 255) % 256 ∧
          0x100 + (e.sp + 255) % 256 < 0x300 + read16 e.mem 0x83 <<< 1) by omega),
        if_pos (show 0x100 + (e.sp + 255) % 256 = 0x100 + (e.sp + 255) % 256
          from rfl)]
    · simp
  · intro hbad
    rw [hstep]
    unfold romCall
    by_cases h1 : 0x500 ≤ read16 e.mem 0x83 <<< 1
    · rw [if_pos h1]
    · rw [if_neg h1]
      by_cases h2 : s.romSize < read24 e.mem 0x80 + read16 e.mem 0x83 <<< 1
      · rw [if_pos h2]
      · rw [if_neg h2]
        rw [if_pos (by omega)]

/-- Concrete memory for the C2 witness: callee address 0x10 at 0x80..0x82
and half-size 4 at 0x83..0x84 (so the frame size is 8). -/
def memC2 : Nat → Nat := fun i =>
  if i = 0x80 then 0x10 else if i = 0x83 then 4 else 0

/-- Concrete CPU state entering the 0x60DE trap. -/
def eC2 : Emu := ⟨0x60de, 0, 0, 0, 0x7f, 0, 0, 0, 0, 0, 0, memC2⟩

/-- A key configuration (arbitrary distinct codes, keymap bits 2..6). -/
def cfg0 : KeyCfg := ⟨1, 2, 3, 4, 5, 6, 0, fun i => 2 + i⟩

/-- The all-zero (OFF) flash state. -/
def flash0 : Flash := ⟨0, 0, 0, 0, fun _ => 0, 0⟩

/-- Concrete system context for the C2 witness. -/
def sC2 : Sys :=
  ⟨fun i => i % 256, 0x100, 0, 0, 0, fun _ => ⟨0, 0⟩, 0, flash0, [], cfg0⟩

/-- Witness for C2: the 8-byte ROM call from `eC2`/`sC2` succeeds. -/
theorem c2_rom_call_witness :
    ∃ e2 s1, step eC2 sC2 = .next e2 s1 ∧
      e2.pc = 0x300 ∧
      (∀ i, i < read16 eC2.mem 0x83 <<< 1 →
        e2.mem (0x300 + i) = sC2.rom (read24 eC2.mem 0x80 + i)) ∧
      e2.sp = (eC2.sp + 254) % 256 ∧
      e2.mem (0x100 + eC2.sp) = 0x6f ∧
      e2.mem (0x100 + (eC2.sp + 255) % 256) = 0xff ∧
      s1.frameDepth = sC2.frameDepth + 1 ∧
      s1.frames sC2.frameDepth =
        ⟨read24 eC2.mem 0x80, read16 eC2.mem 0x83 <<< 1⟩ :=
  (c2_rom_call eC2 sC2 (by decide) (by decide)).1
    (by decide) (by decide) (by decide)

/-! ## C3: power-off and the outer game loop -/

/-- Helper: a bitwise or is zero iff both sides are. -/
theorem or_eq_zero (x y : Nat) : x ||| y = 0 ↔ x = 0 ∧ y = 0 := by
  constructor
  · intro h
    constructor
    · refine Nat.zero_of_testBit_eq_false fun i => ?_
      have hb := congrArg (fun z => Nat.testBit z i) h
      simp only [Nat.testBit_or, Nat.zero_testBit, Bool.or_eq_false_iff] at hb
      exact hb.1
    · refine Nat.zero_of_testBit_eq_false fun i => ?_
      have hb := congrArg (fun z => Nat.testBit z i) h
      simp only [Nat.testBit_or, Nat.zero_testBit, Bool.or_eq_false_iff] at hb
      exact hb.2
  · rintro ⟨rfl, rfl⟩
    rfl

/-- C3 fails as stated: from a fresh state, executing `STZ 0x00` (a store
of 0 to address 0x0000) makes the step leave the `run_emu` loop with
kill bits 18 and 20 set, yet the outer loop's guard
(`while (!(keys & 3 << 16))`, which only tests bits 16 and 17) still
keeps the loop running — bit 18 alone never makes the game loop exit. -/
theorem c3_counterexample :
    (∃ e1, step (⟨0, 0, 0, 0, 0xff, 0, 0, 0, 0, 0, 0,
        fun i => if i = 0 then 0x64 else 0⟩ : Emu) sC2 =
      .halt e1 {sC2 with keys := 1 <<< 18 ||| 1 <<< 20}) ∧
    gameLoopContinues (1 <<< 18 ||| 1 <<< 20) = true ∧
    gameLoopContinues (1 <<< 18) = true := by
  exact ⟨⟨_, rfl⟩, by decide, by decide⟩

/-- C3 (amended): the writeback hook for a store of 0 to address 0x0000
ends the `run_emu` loop (`break`, so the current invocation returns at
the end of that instruction) and sets kill bits 18 and 20; the outer
game loop, however, iterates until bit 16 or bit 17 is set, and bits 18
and 20 do not change its guard, so power-off does not by itself exit the
loop; the reset path is taken exactly when the loop exits with bit 16
clear. -/
theorem c3_power_off (e : Emu) (s : Sys) (pc2 t : Nat) (ht : t = 0) :
    (execStore t 0 pc2 e s =
      .halt {e with mem := upd e.mem 0 (t % 256), pc := pc2}
        {s with keys := s.keys ||| (1 <<< 18 ||| 1 <<< 20)}) ∧
    (∀ k, gameLoopContinues k = false ↔
      (k &&& 1 <<< 16 ≠ 0 ∨ k &&& 1 <<< 17 ≠ 0)) ∧
    (gameLoopContinues (s.keys ||| (1 <<< 18 ||| 1 <<< 20)) =
      gameLoopContinues s.keys) ∧
    (∀ k, resetPath k = true ↔ k &&& 1 <<< 16 = 0) := by
  subst ht
  refine ⟨?_, ?_, ?_, ?_⟩
  · unfold execStore
    rw [if_neg (by omega), if_neg (by omega), if_pos rfl, if_pos rfl]
  · intro k
    unfold gameLoopContinues
    have h316 : (3 <<< 16 : Nat) = 1 <<< 16 ||| 1 <<< 17 := by decide
    rw [h316, Nat.and_or_distrib_left, beq_eq_false_iff_ne, ne_eq, or_eq_zero]
    tauto
  · unfold gameLoopContinues
    rw [Nat.and_distrib_right]
    have : (1 <<< 18 ||| 1 <<< 20) &&& 3 <<< 16 = 0 := by decide
    rw [this, Nat.or_zero]
  · intro k
    unfold resetPath
    simp

/-- Witness for C3 (amended): the concrete power-off store from `sC2`. -/
theorem c3_power_off_witness :
    (execStore 0 0 0x200 eC2 sC2 =
      .halt {eC2 with mem := upd eC2.mem 0 (0 % 256), pc := 0x200}
        {sC2 with keys := sC2.keys ||| (1 <<< 18 ||| 1 <<< 20)}) ∧
    (∀ k, gameLoopContinues k = false ↔
      (k &&& 1 <<< 16 ≠ 0 ∨ k &&& 1 <<< 17 ≠ 0)) ∧
    (gameLoopContinues (sC2.keys ||| (1 <<< 18 ||| 1 <<< 20)) =
      gameLoopContinues sC2.keys) ∧
    (∀ k, resetPath k = true ↔ k &&& 1 <<< 16 = 0) :=
  c3_power_off eC2 sC2 0x200 0 rfl


/-! ## C9: read traps mutate the polled cells -/

/-- The LDA opcodes, spelled out. -/
theorem ldaVals (op : Nat) (h : isLDA op = true) :
    op = 0xa9 ∨ op = 0xa5 ∨ op = 0xad ∨ op = 0xb5 ∨ op = 0xbd ∨
    op = 0xa1 ∨ op = 0xb1 ∨ op = 0xb2 ∨ op = 0xb9 := by
  simp only [isLDA, Bool.or_eq_true, beq_iff_eq] at h
  tauto

/-- The LDX opcodes, spelled out. -/
theorem ldxVals (op : Nat) (h : isLDX op = true) :
    op = 0xa2 ∨ op = 0xa6 ∨ op = 0xae ∨ op = 0xb6 ∨ op = 0xbe := by
  simp only [isLDX, Bool.or_eq_true, beq_iff_eq] at h
  tauto

/-- The LDY opcodes, spelled out. -/
theorem ldyVals (op : Nat) (h : isLDY op = true) :
    op = 0xa0 ∨ op = 0xa4 ∨ op = 0xac ∨ op = 0xb4 ∨ op = 0xbc := by
  simp only [isLDY, Bool.or_eq_true, beq_iff_eq] at h
  tauto

/-- Every load opcode has a clear store bit in `op_mod`. -/
theorem opMod_snd_of_load (op : Nat)
    (h : isLDA op = true ∨ isLDX op = true ∨ isLDY op = true) :
    (opMod op).2 = false := by
  rcases h with h | h | h
  · rcases ldaVals op h with rfl|rfl|rfl|rfl|rfl|rfl|rfl|rfl|rfl <;> rfl
  · rcases ldxVals op h with rfl|rfl|rfl|rfl|rfl <;> rfl
  · rcases ldyVals op h with rfl|rfl|rfl|rfl|rfl <;> rfl

/-- The three load groups are pairwise disjoint. -/
theorem not_lda_of_ldx (op : Nat) (h : isLDX op = true) : isLDA op = false := by
  rcases ldxVals op h with rfl|rfl|rfl|rfl|rfl <;> rfl

/-- LDY opcodes are not LDA opcodes. -/
theorem not_lda_of_ldy (op : Nat) (h : isLDY op = true) : isLDA op = false := by
  rcases ldyVals op h with rfl|rfl|rfl|rfl|rfl <;> rfl

/-- LDY opcodes are not LDX opcodes. -/
theorem not_ldx_of_ldy (op : Nat) (h : isLDY op = true) : isLDX op = false := by
  rcases ldyVals op h with rfl|rfl|rfl|rfl|rfl <;> rfl

/-- Dispatch of an LDA opcode. -/
theorem dispatch_lda (op : Nat) (h : isLDA op = true) (loc : Loc) (pc2 : Nat)
    (e : Emu) (s : Sys) :
    dispatch op loc pc2 e s =
      .next (setZN (readLoc loc e) {e with a := readLoc loc e % 256, pc := pc2}) s := by
  unfold dispatch
  rw [if_pos h]

/-- Dispatch of an LDX opcode. -/
theorem dispatch_ldx (op : Nat) (h : isLDX op = true) (loc : Loc) (pc2 : Nat)
    (e : Emu) (s : Sys) :
    dispatch op loc pc2 e s =
      .next (setZN (readLoc loc e) {e with x := readLoc loc e % 256, pc := pc2}) s := by
  unfold dispatch
  rw [if_neg (by simp [not_lda_of_ldx op h]), if_pos h]

/-- Dispatch of an LDY opcode. -/
theorem dispatch_ldy (op : Nat) (h : isLDY op = true) (loc : Loc) (pc2 : Nat)
    (e : Emu) (s : Sys) :
    dispatch op loc pc2 e s =
      .next (setZN (readLoc loc e) {e with y := readLoc loc e % 256, pc := pc2}) s := by
  unfold dispatch
  rw [if_neg (by simp [not_lda_of_ldy op h]),
     if_neg (by simp [not_ldx_of_ldy op h]), if_pos h]


/-- Updating at an address and reading it back gives the new value. -/
theorem upd_self (f : Nat → Nat) (a v : Nat) : upd f a v a = v := by
  simp [upd]

/-- Bit set by an OR survives the byte truncation. -/
theorem tb_or_mod (x i : Nat) (hi : i < 8) :
    Nat.testBit ((x ||| 1 <<< i) % 256) i = true := by
  have h256 : (256 : Nat) = 2 ^ 8 := by norm_num
  rw [h256, Nat.testBit_mod_two_pow]
  simp [hi, Nat.testBit_or, Nat.testBit_shiftLeft]

/-- Bit cleared by an AND mask stays clear after byte truncation. -/
theorem tb_and_mod (x m i : Nat) (hi : i < 8) (hm : Nat.testBit m i = false) :
    Nat.testBit ((x &&& m) % 256) i = false := by
  have h256 : (256 : Nat) = 2 ^ 8 := by norm_num
  rw [h256, Nat.testBit_mod_two_pow]
  simp [hi, Nat.testBit_and, hm]

/-- LDA opcodes are not LDX opcodes. -/
theorem not_ldx_of_lda (op : Nat) (h : isLDA op = true) : isLDX op = false := by
  rcases ldaVals op h with rfl|rfl|rfl|rfl|rfl|rfl|rfl|rfl|rfl <;> rfl

/-- LDA opcodes are not LDY opcodes. -/
theorem not_ldy_of_lda (op : Nat) (h : isLDA op = true) : isLDY op = false := by
  rcases ldaVals op h with rfl|rfl|rfl|rfl|rfl|rfl|rfl|rfl|rfl <;> rfl

/-- LDX opcodes are not LDY opcodes. -/
theorem not_ldy_of_ldx (op : Nat) (h : isLDX op = true) : isLDY op = false := by
  rcases ldxVals op h with rfl|rfl|rfl|rfl|rfl <;> rfl

/-- For a load opcode, `dispatch` continues with the memory untouched and
the target register holding exactly the byte at the effective address. -/
theorem dispatch_load_mem (op o pc2 : Nat) (eb : Emu) (s1 : Sys)
    (hload : isLDA op = true ∨ isLDX op = true ∨ isLDY op = true)
    (hlt : eb.mem o < 256) :
    ∃ e1, dispatch op (Loc.mem o) pc2 eb s1 = .next e1 s1 ∧
      e1.mem = eb.mem ∧
      (isLDA op = true → e1.a = eb.mem o) ∧
      (isLDX op = true → e1.x = eb.mem o) ∧
      (isLDY op = true → e1.y = eb.mem o) := by
  rcases hload with h | h | h
  · refine ⟨_, dispatch_lda op h _ _ _ _, rfl, ?_, ?_, ?_⟩
    · intro _
      simp only [setZN, readLoc]
      exact Nat.mod_eq_of_lt hlt
    · intro hx
      rw [not_ldx_of_lda op h] at hx
      cases hx
    · intro hy
      rw [not_ldy_of_lda op h] at hy
      cases hy
  · refine ⟨_, dispatch_ldx op h _ _ _ _, rfl, ?_, ?_, ?_⟩
    · intro hx
      rw [not_lda_of_ldx op h] at hx
      cases hx
    · intro _
      simp only [setZN, readLoc]
      exact Nat.mod_eq_of_lt hlt
    · intro hy
      rw [not_ldy_of_ldx op h] at hy
      cases hy
  · refine ⟨_, dispatch_ldy op h _ _ _ _, rfl, ?_, ?_, ?_⟩
    · intro hx
      rw [not_lda_of_ldy op h] at hx
      cases hx
    · intro hy
      rw [not_ldx_of_ldy op h] at hy
      cases hy
    · intro _
      simp only [setZN, readLoc]
      exact Nat.mod_eq_of_lt hlt

/-- C9: every load instruction (LDA/LDX/LDY with a memory operand) whose
effective address is 0x00, 0x02, 0x14, 0x7B or 0x93 mutates the cell in
place — 0x02 gets bit 1 cleared, 0x14/0x7B/0x93 get bits 6/3/7 set, and
0x00 is overwritten with the negated key bitmask (after a possible event
pump updating the keys) — and the value delivered to the target register
is exactly the mutated cell. -/
theorem c9_load_traps (e : Emu) (s : Sys) (op o pc2 : Nat)
    (hpc : e.pc &&& 0xffff < 0x6000)
    (hop : e.mem (e.pc &&& 0xffff) = op)
    (hload : isLDA op = true ∨ isLDX op = true ∨ isLDY op = true)
    (hres : resolve (opMod op).1 e ((e.pc &&& 0xffff) + 1) = (.mem o, pc2))
    (ho : o = 0x00 ∨ o = 0x02 ∨ o = 0x14 ∨ o = 0x7b ∨ o = 0x93) :
    ∃ e1 s1, step e s = .next e1 s1 ∧
      e1.mem o = (if o = 0x00 then (0xffffffff ^^^ s1.keys) % 256
        else if o = 0x02 then (e.mem 0x02 &&& 0xfffffffd) % 256
        else if o = 0x14 then (e.mem 0x14 ||| 1 <<< 6) % 256
        else if o = 0x7b then (e.mem 0x7b ||| 1 <<< 3) % 256
        else (e.mem 0x93 ||| 1 <<< 7) % 256) ∧
      (o = 0x02 → Nat.testBit (e1.mem o) 1 = false) ∧
      (o = 0x14 → Nat.testBit (e1.mem o) 6 = true) ∧
      (o = 0x7b → Nat.testBit (e1.mem o) 3 = true) ∧
      (o = 0x93 → Nat.testBit (e1.mem o) 7 = true) ∧
      (isLDA op = true → e1.a = e1.mem o) ∧
      (isLDX op = true → e1.x = e1.mem o) ∧
      (isLDY op = true → e1.y = e1.mem o) := by
  have hsnd : (opMod op).2 = false := opMod_snd_of_load op hload
  have hstep : step e s = exec op false (Loc.mem o) pc2 e s := by
    simp only [step]
    rw [if_neg (by omega), hop, hsnd, hres]
  rcases ho with rfl | rfl | rfl | rfl | rfl
  · -- o = 0x00: the input trap, with or without the event pump
    by_cases ht : 16 ≤ e.inputTimer + 1
    · have hrt : readTrap 0 e.mem s.keys e.inputTimer s.events s.cfg =
          (upd e.mem 0 ((0xffffffff ^^^ gameEvent s.cfg s.events s.keys) % 256),
           gameEvent s.cfg s.events s.keys, 0, []) := by
        unfold readTrap
        rw [if_pos rfl, if_pos ht]
      have hexec : exec op false (Loc.mem 0) pc2 e s =
          dispatch op (Loc.mem 0) pc2
            {e with mem := upd e.mem 0 ((0xffffffff ^^^ gameEvent s.cfg s.events s.keys) % 256), inputTimer := 0}
            {s with keys := gameEvent s.cfg s.events s.keys, events := []} := by
        simp only [exec, hrt]
      obtain ⟨e1, hd1, hmemeq, ha, hx, hy⟩ := dispatch_load_mem op 0 pc2
        {e with mem := upd e.mem 0 ((0xffffffff ^^^ gameEvent s.cfg s.events s.keys) % 256), inputTimer := 0}
        {s with keys := gameEvent s.cfg s.events s.keys, events := []} hload
        (by rw [show Emu.mem {e with mem := upd e.mem 0 ((0xffffffff ^^^ gameEvent s.cfg s.events s.keys) % 256), inputTimer := 0} = upd e.mem 0 ((0xffffffff ^^^ gameEvent s.cfg s.events s.keys) % 256) from rfl, upd_self]; omega)
      have hval : e1.mem 0 =
          (0xffffffff ^^^ gameEvent s.cfg s.events s.keys) % 256 := by
        rw [hmemeq]
        show upd e.mem 0 ((0xffffffff ^^^ gameEvent s.cfg s.events s.keys) % 256) 0 = (0xffffffff ^^^ gameEvent s.cfg s.events s.keys) % 256
        rw [upd_self]
      refine ⟨e1, _, by rw [hstep, hexec, hd1], by simp [hval], by simp,
        by simp, by simp, by simp, ?_, ?_, ?_⟩
      · intro h
        rw [ha h, hmemeq]
      · intro h
        rw [hx h, hmemeq]
      · intro h
        rw [hy h, hmemeq]
    · have hrt : readTrap 0 e.mem s.keys e.inputTimer s.events s.cfg =
          (upd e.mem 0 ((0xffffffff ^^^ s.keys) % 256),
           s.keys, e.inputTimer + 1, s.events) := by
        unfold readTrap
        rw [if_pos rfl, if_neg ht]
      have hexec : exec op false (Loc.mem 0) pc2 e s =
          dispatch op (Loc.mem 0) pc2
            {e with mem := upd e.mem 0 ((0xffffffff ^^^ s.keys) % 256), inputTimer := e.inputTimer + 1} s := by
        simp only [exec, hrt]
      obtain ⟨e1, hd1, hmemeq, ha, hx, hy⟩ := dispatch_load_mem op 0 pc2
        {e with mem := upd e.mem 0 ((0xffffffff ^^^ s.keys) % 256), inputTimer := e.inputTimer + 1}
        s hload
        (by rw [show Emu.mem {e with mem := upd e.mem 0 ((0xffffffff ^^^ s.keys) % 256), inputTimer := e.inputTimer + 1} = upd e.mem 0 ((0xffffffff ^^^ s.keys) % 256) from rfl, upd_self]; omega)
      have hval : e1.mem 0 = (0xffffffff ^^^ s.keys) % 256 := by
        rw [hmemeq]
        show upd e.mem 0 ((0xffffffff ^^^ s.keys) % 256) 0 = (0xffffffff ^^^ s.keys) % 256
        rw [upd_self]
      refine ⟨e1, _, by rw [hstep, hexec, hd1], by simp [hval], by simp,
        by simp, by simp, by simp, ?_, ?_, ?_⟩
      · intro h
        rw [ha h, hmemeq]
      · intro h
        rw [hx h, hmemeq]
      · intro h
        rw [hy h, hmemeq]
  · -- o = 0x02
    have hexec : exec op false (Loc.mem 0x02) pc2 e s =
        dispatch op (Loc.mem 0x02) pc2
          {e with mem := upd e.mem 0x02 ((e.mem 0x02 &&& 0xfffffffd) % 256)} s :=
      rfl
    obtain ⟨e1, hd1, hmemeq, ha, hx, hy⟩ := dispatch_load_mem op 0x02 pc2
      {e with mem := upd e.mem 0x02 ((e.mem 0x02 &&& 0xfffffffd) % 256)} s hload
      (by rw [show Emu.mem {e with mem := upd e.mem 0x02 ((e.mem 0x02 &&& 0xfffffffd) % 256)} =
          upd e.mem 0x02 ((e.mem 0x02 &&& 0xfffffffd) % 256) from rfl, upd_self]; omega)
    have hval : e1.mem 0x02 = (e.mem 0x02 &&& 0xfffffffd) % 256 := by
      rw [hmemeq]
      show upd e.mem 0x02 ((e.mem 0x02 &&& 0xfffffffd) % 256) 0x02 = (e.mem 0x02 &&& 0xfffffffd) % 256
      rw [upd_self]
    refine ⟨e1, _, by rw [hstep, hexec, hd1], by simp [hval], ?_, by simp,
      by simp, by simp, ?_, ?_, ?_⟩
    · intro _
      rw [hval]
      exact tb_and_mod _ _ _ (by omega) (by decide)
    · intro h
      rw [ha h, hmemeq]
    · intro h
      rw [hx h, hmemeq]
    · intro h
      rw [hy h, hmemeq]
  · -- o = 0x14
    have hexec : exec op false (Loc.mem 0x14) pc2 e s =
        dispatch op (Loc.mem 0x14) pc2
          {e with mem := upd e.mem 0x14 ((e.mem 0x14 ||| 1 <<< 6) % 256)} s :=
      rfl
    obtain ⟨e1, hd1, hmemeq, ha, hx, hy⟩ := dispatch_load_mem op 0x14 pc2
      {e with mem := upd e.mem 0x14 ((e.mem 0x14 ||| 1 <<< 6) % 256)} s hload
      (by rw [show Emu.mem {e with mem := upd e.mem 0x14 ((e.mem 0x14 ||| 1 <<< 6) % 256)} =
          upd e.mem 0x14 ((e.mem 0x14 ||| 1 <<< 6) % 256) from rfl, upd_self]; omega)
    have hval : e1.mem 0x14 = (e.mem 0x14 ||| 1 <<< 6) % 256 := by
      rw [hmemeq]
      show upd e.mem 0x14 ((e.mem 0x14 ||| 1 <<< 6) % 256) 0x14 = (e.mem 0x14 ||| 1 <<< 6) % 256
      rw [upd_self]
    refine ⟨e1, _, by rw [hstep, hexec, hd1], by simp [hval], by simp, ?_,
      by simp, by simp, ?_, ?_, ?_⟩
    · intro _
      rw [hval]
      exact tb_or_mod _ _ (by omega)
    · intro h
      rw [ha h, hmemeq]
    · intro h
      rw [hx h, hmemeq]
    · intro h
      rw [hy h, hmemeq]
  · -- o = 0x7b
    have hexec : exec op false (Loc.mem 0x7b) pc2 e s =
        dispatch op (Loc.mem 0x7b) pc2
          {e with mem := upd e.mem 0x7b ((e.mem 0x7b ||| 1 <<< 3) % 256)} s :=
      rfl
    obtain ⟨e1, hd1, hmemeq, ha, hx, hy⟩ := dispatch_load_mem op 0x7b pc2
      {e with mem := upd e.mem 0x7b ((e.mem 0x7b ||| 1 <<< 3) % 256)} s hload
      (by rw [show Emu.mem {e with mem := upd e.mem 0x7b ((e.mem 0x7b ||| 1 <<< 3) % 256)} =
          upd e.mem 0x7b ((e.mem 0x7b ||| 1 <<< 3) % 256) from rfl, upd_self]; omega)
    have hval : e1.mem 0x7b = (e.mem 0x7b ||| 1 <<< 3) % 256 := by
      rw [hmemeq]
      show upd e.mem 0x7b ((e.mem 0x7b ||| 1 <<< 3) % 256) 0x7b = (e.mem 0x7b ||| 1 <<< 3) % 256
      rw [upd_self]
    refine ⟨e1, _, by rw [hstep, hexec, hd1], by simp [hval], by simp, by simp,
      ?_, by simp, ?_, ?_, ?_⟩
    · intro _
      rw [hval]
      exact tb_or_mod _ _ (by omega)
    · intro h
      rw [ha h, hmemeq]
    · intro h
      rw [hx h, hmemeq]
    · intro h
      rw [hy h, hmemeq]
  · -- o = 0x93
    have hexec : exec op false (Loc.mem 0x93) pc2 e s =
        dispatch op (Loc.mem 0x93) pc2
          {e with mem := upd e.mem 0x93 ((e.mem 0x93 ||| 1 <<< 7) % 256)} s :=
      rfl
    obtain ⟨e1, hd1, hmemeq, ha, hx, hy⟩ := dispatch_load_mem op 0x93 pc2
      {e with mem := upd e.mem 0x93 ((e.mem 0x93 ||| 1 <<< 7) % 256)} s hload
      (by rw [show Emu.mem {e with mem := upd e.mem 0x93 ((e.mem 0x93 ||| 1 <<< 7) % 256)} =
          upd e.mem 0x93 ((e.mem 0x93 ||| 1 <<< 7) % 256) from rfl, upd_self]; omega)
    have hval : e1.mem 0x93 = (e.mem 0x93 ||| 1 <<< 7) % 256 := by
      rw [hmemeq]
      show upd e.mem 0x93 ((e.mem 0x93 ||| 1 <<< 7) % 256) 0x93 = (e.mem 0x93 ||| 1 <<< 7) % 256
      rw [upd_self]
    refine ⟨e1, _, by rw [hstep, hexec, hd1], by simp [hval], by simp, by simp,
      by simp, ?_, ?_, ?_, ?_⟩
    · intro _
      rw [hval]
      exact tb_or_mod _ _ (by omega)
    · intro h
      rw [ha h, hmemeq]
    · intro h
      rw [hx h, hmemeq]
    · intro h
      rw [hy h, hmemeq]


/-- Concrete state for the C9 witness: `LDA 0x02` at pc 0, with 0xFF
stored at address 0x02. -/
def eC9 : Emu := ⟨0, 0, 0, 0, 0xff, 0, 0, 0, 0, 0, 0,
  fun i => if i = 0 then 0xa5 else if i = 1 then 0x02
           else if i = 2 then 0xff else 0⟩

/-- Witness for C9: `LDA 0x02` clears bit 1 of the cell and loads the
mutated byte. -/
theorem c9_load_traps_witness :
    ∃ e1 s1, step eC9 sC2 = .next e1 s1 ∧
      e1.mem 0x02 = (if (0x02 : Nat) = 0x00 then (0xffffffff ^^^ s1.keys) % 256
        else if (0x02 : Nat) = 0x02 then (eC9.mem 0x02 &&& 0xfffffffd) % 256
        else if (0x02 : Nat) = 0x14 then (eC9.mem 0x14 ||| 1 <<< 6) % 256
        else if (0x02 : Nat) = 0x7b then (eC9.mem 0x7b ||| 1 <<< 3) % 256
        else (eC9.mem 0x93 ||| 1 <<< 7) % 256) ∧
      ((0x02 : Nat) = 0x02 → Nat.testBit (e1.mem 0x02) 1 = false) ∧
      ((0x02 : Nat) = 0x14 → Nat.testBit (e1.mem 0x02) 6 = true) ∧
      ((0x02 : Nat) = 0x7b → Nat.testBit (e1.mem 0x02) 3 = true) ∧
      ((0x02 : Nat) = 0x93 → Nat.testBit (e1.mem 0x02) 7 = true) ∧
      (isLDA 0xa5 = true → e1.a = e1.mem 0x02) ∧
      (isLDX 0xa5 = true → e1.x = e1.mem 0x02) ∧
      (isLDY 0xa5 = true → e1.y = e1.mem 0x02) :=
  c9_load_traps eC9 sC2 0xa5 0x02 2 (by decide) (by decide)
    (Or.inl (by decide)) (by decide) (by decide)


/-! ## C10: the byte read at 0x00 and host-flag noninterference -/

/-- ORing the same mask preserves low-byte equality. -/
theorem lowbyte_or (k1 k2 m : Nat) (h : k1 % 256 = k2 % 256) :
    (k1 ||| m) % 256 = (k2 ||| m) % 256 := by
  have h256 : (256 : Nat) = 2 ^ 8 := by norm_num
  rw [h256] at h ⊢
  refine Nat.eq_of_testBit_eq fun i => ?_
  simp only [Nat.testBit_mod_two_pow, Nat.testBit_or]
  by_cases hi : i < 8
  · have hb := congrArg (fun z => Nat.testBit z i) h
    simp only [Nat.testBit_mod_two_pow, hi, decide_True, Bool.true_and] at hb
    simp [hi, hb]
  · simp [hi]

/-- ANDing the same mask preserves low-byte equality. -/
theorem lowbyte_and (k1 k2 m : Nat) (h : k1 % 256 = k2 % 256) :
    (k1 &&& m) % 256 = (k2 &&& m) % 256 := by
  have h256 : (256 : Nat) = 2 ^ 8 := by norm_num
  rw [h256] at h ⊢
  refine Nat.eq_of_testBit_eq fun i => ?_
  simp only [Nat.testBit_mod_two_pow, Nat.testBit_and]
  by_cases hi : i < 8
  · have hb := congrArg (fun z => Nat.testBit z i) h
    simp only [Nat.testBit_mod_two_pow, hi, decide_True, Bool.true_and] at hb
    simp [hi, hb]
  · simp [hi]

/-- The event pump only combines the key bitmask with event-derived masks
(bitwise AND/OR), so it preserves low-byte equality of the keys. -/
theorem gameEvent_lowbyte (cfg : KeyCfg) (ev : List GEv) :
    ∀ k1 k2, k1 % 256 = k2 % 256 →
      gameEvent cfg ev k1 % 256 = gameEvent cfg ev k2 % 256 := by
  induction ev with
  | nil =>
    intro k1 k2 h
    exact h
  | cons head tail ih =>
    intro k1 k2 h
    cases head with
    | quit =>
      simp only [gameEvent]
      exact lowbyte_or _ _ _ h
    | press key =>
      simp only [gameEvent]
      by_cases hesc : key = cfg.keyEscape
      · simp only [hesc, ite_true, if_pos]
        exact lowbyte_or _ _ _ h
      · rw [if_neg hesc, if_neg hesc]
        by_cases hk : (0 : Int) ≤ classifyKey cfg key
        · rw [if_pos hk, if_pos hk]
          exact ih _ _ (lowbyte_or _ _ _ (lowbyte_and _ _ _ h))
        · rw [if_neg hk, if_neg hk]
          exact ih _ _ h
    | release key =>
      simp only [gameEvent]
      by_cases hk : (0 : Int) ≤ classifyKey cfg key
      · rw [if_pos hk, if_pos hk]
        exact ih _ _ (lowbyte_or _ _ _ (lowbyte_and _ _ _ h))
      · rw [if_neg hk, if_neg hk]
        exact ih _ _ h

/-- The byte the 0x00 trap stores, `(uint8_t)~keys`, is the complement of
the low 8 bits of the keys bitmask, whatever the higher bits hold. -/
theorem compl_mod256 (k : Nat) :
    (0xffffffff ^^^ k) % 256 = (k &&& 0xff) ^^^ 0xff := by
  have h1 : (0xffffffff : Nat) = 2 ^ 32 - 1 := by norm_num
  have h2 : (0xff : Nat) = 2 ^ 8 - 1 := by norm_num
  have h256 : (256 : Nat) = 2 ^ 8 := by norm_num
  rw [h1, h2, h256]
  refine Nat.eq_of_testBit_eq fun i => ?_
  simp only [Nat.testBit_mod_two_pow, Nat.testBit_xor, Nat.testBit_and,
    Nat.testBit_two_pow_sub_one]
  by_cases hi : i < 8
  · have hi32 : i < 32 := by omega
    simp [hi, hi32, Bool.xor_comm]
  · simp [hi]

/-- C10: a CPU load from address 0x00 delivers exactly the bitwise
complement of the low 8 bits of the host keys bitmask (the keys after
the trap's possible event pump), and two runs whose keys agree on the
low 8 bits — they may differ arbitrarily in bits 8 and above, including
the kill flags in bits 16..20 — store the same byte at 0x00: the
host-side control flags never leak into device input. -/
theorem c10_key_noninterference (cfg : KeyCfg) (ev : List GEv)
    (mem : Nat → Nat) (keys1 keys2 timer : Nat)
    (hlow : keys1 % 256 = keys2 % 256) :
    ((readTrap 0 mem keys1 timer ev cfg).1 0 =
      ((readTrap 0 mem keys1 timer ev cfg).2.1 &&& 0xff) ^^^ 0xff) ∧
    ((readTrap 0 mem keys1 timer ev cfg).1 0 =
      (readTrap 0 mem keys2 timer ev cfg).1 0) := by
  have hmod : ∀ k : Nat, k &&& 0xff = k % 256 := fun k =>
    Nat.and_pow_two_sub_one_eq_mod k 8
  by_cases ht : 16 ≤ timer + 1
  · have hrt : ∀ k, readTrap 0 mem k timer ev cfg =
        (upd mem 0 ((0xffffffff ^^^ gameEvent cfg ev k) % 256),
         gameEvent cfg ev k, 0, []) := by
      intro k
      unfold readTrap
      rw [if_pos rfl, if_pos ht]
    constructor
    · rw [hrt keys1]
      show upd mem 0 ((0xffffffff ^^^ gameEvent cfg ev keys1) % 256) 0 =
        (gameEvent cfg ev keys1 &&& 0xff) ^^^ 0xff
      rw [upd_self, compl_mod256]
    · rw [hrt keys1, hrt keys2]
      show upd mem 0 ((0xffffffff ^^^ gameEvent cfg ev keys1) % 256) 0 =
        upd mem 0 ((0xffffffff ^^^ gameEvent cfg ev keys2) % 256) 0
      rw [upd_self, upd_self, compl_mod256, compl_mod256, hmod, hmod,
        gameEvent_lowbyte cfg ev keys1 keys2 hlow]
  · have hrt : ∀ k, readTrap 0 mem k timer ev cfg =
        (upd mem 0 ((0xffffffff ^^^ k) % 256), k, timer + 1, ev) := by
      intro k
      unfold readTrap
      rw [if_pos rfl, if_neg ht]
    constructor
    · rw [hrt keys1]
      show upd mem 0 ((0xffffffff ^^^ keys1) % 256) 0 =
        (keys1 &&& 0xff) ^^^ 0xff
      rw [upd_self, compl_mod256]
    · rw [hrt keys1, hrt keys2]
      show upd mem 0 ((0xffffffff ^^^ keys1) % 256) 0 =
        upd mem 0 ((0xffffffff ^^^ keys2) % 256) 0
      rw [upd_self, upd_self, compl_mod256, compl_mod256, hmod, hmod, hlow]

/-- Witness for C10: keys 0x12345 and 0x45 share a low byte, so the trap
stores the same negated-button byte for both. -/
theorem c10_key_noninterference_witness :
    ((readTrap 0 (fun _ => 0) 0x12345 0 [] cfg0).1 0 =
      ((readTrap 0 (fun _ => 0) 0x12345 0 [] cfg0).2.1 &&& 0xff) ^^^ 0xff) ∧
    ((readTrap 0 (fun _ => 0) 0x12345 0 [] cfg0).1 0 =
      (readTrap 0 (fun _ => 0) 0x45 0 [] cfg0).1 0) :=
  c10_key_noninterference cfg0 [] (fun _ => 0) 0x12345 0x45 0 (by decide)


/-! ## C5: flash Write Enable + Page Program -/

/-- Runs a sequence of bytes stored to I/O address 0x02 through the flash
machine, aborting on `ERR_EXIT`. -/
def runFlash (so rs rk : Nat) : List Nat → Flash × (Nat → Nat) →
    Option (Flash × (Nat → Nat))
  | [], st => some st
  | d :: rest, (f, rom) =>
    match flashEmu so rs rk f rom d with
    | none => none
    | some st => runFlash so rs rk rest st

/-- The effect on the flash machine of storing 0 to I/O address 0x12
(`sys->flash.state = t ? FLASH_OFF : FLASH_READY` with `t = 0`). -/
def flashOn (f : Flash) : Flash := {f with state := FLASH_READY}

/-- Bit-banged encoding of one byte on the 0x02 port: bits MSB-first, each
bit sent twice — clock low (`2 | bit<<2`) then clock high (`3 | bit<<2`). -/
def sendByte (v : Nat) : List Nat :=
  [2 ||| (v >>> 7 &&& 1) <<< 2, 3 ||| (v >>> 7 &&& 1) <<< 2,
   2 ||| (v >>> 6 &&& 1) <<< 2, 3 ||| (v >>> 6 &&& 1) <<< 2,
   2 ||| (v >>> 5 &&& 1) <<< 2, 3 ||| (v >>> 5 &&& 1) <<< 2,
   2 ||| (v >>> 4 &&& 1) <<< 2, 3 ||| (v >>> 4 &&& 1) <<< 2,
   2 ||| (v >>> 3 &&& 1) <<< 2, 3 ||| (v >>> 3 &&& 1) <<< 2,
   2 ||| (v >>> 2 &&& 1) <<< 2, 3 ||| (v >>> 2 &&& 1) <<< 2,
   2 ||| (v >>> 1 &&& 1) <<< 2, 3 ||| (v >>> 1 &&& 1) <<< 2,
   2 ||| (v &&& 1) <<< 2, 3 ||| (v &&& 1) <<< 2]

/-- Clock-low data bytes carry bit 3 clear. -/
theorem bitlo_and8 (b : Nat) (hb : b < 2) : (2 ||| b <<< 2) &&& 8 = 0 := by
  interval_cases b <;> decide

/-- Clock-high data bytes carry bit 3 clear. -/
theorem bithi_and8 (b : Nat) (hb : b < 2) : (3 ||| b <<< 2) &&& 8 = 0 := by
  interval_cases b <;> decide

/-- Clock-low bytes satisfy the protocol check for an even counter. -/
theorem bitlo_proto (b : Nat) (hb : b < 2) :
    ((2 ||| b <<< 2) &&& 0xfffffffb) ^^^ 0 = 2 := by
  interval_cases b <;> decide

/-- Clock-high bytes satisfy the protocol check for an odd counter. -/
theorem bithi_proto (b : Nat) (hb : b < 2) :
    ((3 ||| b <<< 2) &&& 0xfffffffb) ^^^ 1 = 2 := by
  interval_cases b <;> decide

/-- The encoded bit is recovered as `data >> 2` (clock low). -/
theorem bitlo_shr (b : Nat) (hb : b < 2) : (2 ||| b <<< 2) >>> 2 = b := by
  interval_cases b <;> decide

/-- The encoded bit is recovered as `data >> 2` (clock high). -/
theorem bithi_shr (b : Nat) (hb : b < 2) : (3 ||| b <<< 2) >>> 2 = b := by
  interval_cases b <;> decide

/-- A freshly shifted argument byte ends in the shifted-in bit. -/
theorem shiftin_bit (x b : Nat) (hb : b < 2) :
    ((x <<< 1 ||| b) % 256) &&& 1 = b := by
  rw [Nat.and_one_is_mod, Nat.shiftLeft_eq]
  interval_cases b
  · rw [Nat.or_zero]
    omega
  · rw [show x * 2 ^ 1 = 2 ^ 1 * x by ring,
      ← Nat.mul_add_lt_is_or (by norm_num) x]
    omega

/-- Updating the same slot twice keeps only the second value. -/
theorem upd_upd_same (f : Nat → Nat) (a v w : Nat) :
    upd (upd f a v) a w = upd f a w := by
  funext i
  unfold upd
  by_cases h : i = a <;> simp [h]

/-- One clock-low write with an even, nonzero bit counter: the bit is
shifted into the current argument byte. -/
theorem flashEmu_lo (so rs rk : Nat) (st c n fl : Nat) (ar : Nat → Nat)
    (ad : Nat) (rom : Nat → Nat) (b : Nat)
    (hst : st = 2 ∨ st = 3) (hb : b < 2) (hev : n % 2 = 0) (hn : n ≠ 0) :
    flashEmu so rs rk ⟨st, c, n, fl, ar, ad⟩ rom (2 ||| b <<< 2) =
      some (⟨st, c, n - 1, fl,
        upd ar ((n - 1) >>> 4) ((ar ((n - 1) >>> 4) <<< 1 ||| b) % 256), ad⟩,
        rom) := by
  unfold flashEmu
  rw [if_neg (show ¬(Flash.state ⟨st, c, n, fl, ar, ad⟩ = FLASH_OFF) by
    rcases hst with rfl | rfl <;> simp [FLASH_OFF]),
    if_neg (show ¬((2 ||| b <<< 2) &&& 8 ≠ 0) by rw [bitlo_and8 b hb]; omega),
    if_neg (show ¬(Flash.state ⟨st, c, n, fl, ar, ad⟩ = FLASH_READY) by
      rcases hst with rfl | rfl <;> simp [FLASH_READY])]
  have hsh : flashShift ⟨st, c, n, fl, ar, ad⟩ (2 ||| b <<< 2) =
      some (⟨st, c, n - 1, fl,
        upd ar ((n - 1) >>> 4) ((ar ((n - 1) >>> 4) <<< 1 ||| b) % 256), ad⟩,
        false) := by
    unfold flashShift
    rw [if_neg (show ¬(Flash.narg ⟨st, c, n, fl, ar, ad⟩ = 0) from hn)]
    rw [show Flash.narg ⟨st, c, n, fl, ar, ad⟩ &&& 1 = 0 by
      rw [Nat.and_one_is_mod]; exact hev]
    rw [if_neg (show ¬((2 ||| b <<< 2) &&& 0xfffffffb ^^^ 0 ≠ 2) by
      rw [bitlo_proto b hb]; omega)]
    rw [if_pos (show (Flash.narg ⟨st, c, n, fl, ar, ad⟩ - 1) &&& 1 ≠ 0 by
      show (n - 1) &&& 1 ≠ 0
      rw [Nat.and_one_is_mod]
      omega)]
    rw [bitlo_shr b hb]
    rw [decide_eq_false (show ¬(Flash.narg ⟨st, c, n, fl, ar, ad⟩ - 1 = 0) by
      show ¬(n - 1 = 0)
      omega)]
  rw [hsh]
  rfl

/-- One clock-high write with an odd counter above 1: the repeated bit is
verified and the counter drops without dispatch. -/
theorem flashEmu_hi (so rs rk : Nat) (st c n fl : Nat) (ar : Nat → Nat)
    (ad : Nat) (rom : Nat → Nat) (b : Nat)
    (hst : st = 2 ∨ st = 3) (hb : b < 2) (hodd : n % 2 = 1) (hn1 : n ≠ 1)
    (har : ar ((n - 1) >>> 4) &&& 1 = b) :
    flashEmu so rs rk ⟨st, c, n, fl, ar, ad⟩ rom (3 ||| b <<< 2) =
      some (⟨st, c, n - 1, fl, ar, ad⟩, rom) := by
  unfold flashEmu
  rw [if_neg (show ¬(Flash.state ⟨st, c, n, fl, ar, ad⟩ = FLASH_OFF) by
    rcases hst with rfl | rfl <;> simp [FLASH_OFF]),
    if_neg (show ¬((3 ||| b <<< 2) &&& 8 ≠ 0) by rw [bithi_and8 b hb]; omega),
    if_neg (show ¬(Flash.state ⟨st, c, n, fl, ar, ad⟩ = FLASH_READY) by
      rcases hst with rfl | rfl <;> simp [FLASH_READY])]
  have hsh : flashShift ⟨st, c, n, fl, ar, ad⟩ (3 ||| b <<< 2) =
      some (⟨st, c, n - 1, fl, ar, ad⟩, false) := by
    unfold flashShift
    rw [if_neg (show ¬(Flash.narg ⟨st, c, n, fl, ar, ad⟩ = 0) by
      show ¬(n = 0); omega)]
    rw [show Flash.narg ⟨st, c, n, fl, ar, ad⟩ &&& 1 = 1 by
      rw [Nat.and_one_is_mod]; exact hodd]
    rw [if_neg (show ¬((3 ||| b <<< 2) &&& 0xfffffffb ^^^ 1 ≠ 2) by
      rw [bithi_proto b hb]; omega)]
    rw [if_neg (show ¬((Flash.narg ⟨st, c, n, fl, ar, ad⟩ - 1) &&& 1 ≠ 0) by
      show ¬((n - 1) &&& 1 ≠ 0)
      rw [Nat.and_one_is_mod]
      omega)]
    rw [bithi_shr b hb]
    rw [if_neg (show ¬((b ^^^ Flash.args ⟨st, c, n, fl, ar, ad⟩
        ((Flash.narg ⟨st, c, n, fl, ar, ad⟩ - 1) >>> 4)) &&& 1 ≠ 0) by
      show ¬((b ^^^ ar ((n - 1) >>> 4)) &&& 1 ≠ 0)
      rw [Nat.and_xor_distrib_right, har]
      have : b &&& 1 = b := by interval_cases b <;> decide
      rw [this]
      simp)]
    rw [decide_eq_false (show ¬(Flash.narg ⟨st, c, n, fl, ar, ad⟩ - 1 = 0) by
      show ¬(n - 1 = 0)
      omega)]
  rw [hsh]
  rfl

/-- The final clock-high write (counter 1): the command dispatches. -/
theorem flashEmu_hi_last (so rs rk : Nat) (st c fl : Nat) (ar : Nat → Nat)
    (ad : Nat) (rom : Nat → Nat) (b : Nat)
    (hst : st = 2 ∨ st = 3) (hb : b < 2) (har : ar 0 &&& 1 = b) :
    flashEmu so rs rk ⟨st, c, 1, fl, ar, ad⟩ rom (3 ||| b <<< 2) =
      flashDispatch so rs rk ⟨st, c, 0, fl, ar, ad⟩ rom := by
  unfold flashEmu
  rw [if_neg (show ¬(Flash.state ⟨st, c, 1, fl, ar, ad⟩ = FLASH_OFF) by
    rcases hst with rfl | rfl <;> simp [FLASH_OFF]),
    if_neg (show ¬((3 ||| b <<< 2) &&& 8 ≠ 0) by rw [bithi_and8 b hb]; omega),
    if_neg (show ¬(Flash.state ⟨st, c, 1, fl, ar, ad⟩ = FLASH_READY) by
      rcases hst with rfl | rfl <;> simp [FLASH_READY])]
  have hsh : flashShift ⟨st, c, 1, fl, ar, ad⟩ (3 ||| b <<< 2) =
      some (⟨st, c, 0, fl, ar, ad⟩, true) := by
    unfold flashShift
    rw [if_neg (show ¬(Flash.narg ⟨st, c, 1, fl, ar, ad⟩ = 0) by
      show ¬((1:Nat) = 0); omega)]
    rw [show Flash.narg ⟨st, c, 1, fl, ar, ad⟩ &&& 1 = 1 by
      show (1:Nat) &&& 1 = 1; decide]
    rw [if_neg (show ¬((3 ||| b <<< 2) &&& 0xfffffffb ^^^ 1 ≠ 2) by
      rw [bithi_proto b hb]; omega)]
    rw [if_neg (show ¬((Flash.narg ⟨st, c, 1, fl, ar, ad⟩ - 1) &&& 1 ≠ 0) by
      show ¬(((1:Nat) - 1) &&& 1 ≠ 0); decide)]
    rw [bithi_shr b hb]
    rw [if_neg (show ¬((b ^^^ Flash.args ⟨st, c, 1, fl, ar, ad⟩
        ((Flash.narg ⟨st, c, 1, fl, ar, ad⟩ - 1) >>> 4)) &&& 1 ≠ 0) by
      show ¬((b ^^^ ar (((1:Nat) - 1) >>> 4)) &&& 1 ≠ 0)
      rw [show ((1:Nat) - 1) >>> 4 = 0 by decide]
      rw [Nat.and_xor_distrib_right, har]
      have hbb : b &&& 1 = b := by interval_cases b <;> decide
      rw [hbb]
      simp)]
    rfl
  rw [hsh]
  rfl

/-- One shift step of the argument accumulator (`args << 1 | bit`, stored
into a `uint8_t`). -/
def shiftin (a b : Nat) : Nat := (a <<< 1 ||| b) % 256

/-- The eight bits of a byte, most significant first, as sent by the
firmware on the bit-banged flash port. -/
def byteBits (v : Nat) : List Nat :=
  [v >>> 7 &&& 1, v >>> 6 &&& 1, v >>> 5 &&& 1, v >>> 4 &&& 1,
   v >>> 3 &&& 1, v >>> 2 &&& 1, v >>> 1 &&& 1, v &&& 1]

/-- Encoding of a bit list on the 0x02 port: each bit clock-low then
clock-high. -/
def sendBits : List Nat → List Nat
  | [] => []
  | b :: bs => (2 ||| b <<< 2) :: (3 ||| b <<< 2) :: sendBits bs

/-- Encoding of a byte list on the 0x02 port. -/
def sendBytes : List Nat → List Nat
  | [] => []
  | v :: vs => sendByte v ++ sendBytes vs

theorem sendByte_eq_sendBits (v : Nat) : sendByte v = sendBits (byteBits v) := rfl

theorem upd_ne (f : Nat → Nat) (a v b : Nat) (h : b ≠ a) : upd f a v b = f b := by
  simp [upd, h]

theorem upd_id (f : Nat → Nat) (a : Nat) : upd f a (f a) = f := by
  funext i
  unfold upd
  by_cases h : i = a <;> simp [h]

theorem runFlash_cons_some (so rs rk d : Nat) (rest : List Nat) (f : Flash)
    (rom : Nat → Nat) (f1 : Flash) (rom1 : Nat → Nat)
    (h : flashEmu so rs rk f rom d = some (f1, rom1)) :
    runFlash so rs rk (d :: rest) (f, rom) = runFlash so rs rk rest (f1, rom1) := by
  simp only [runFlash, h]

theorem runFlash_bind (so rs rk d : Nat) (rest : List Nat) (f : Flash)
    (rom : Nat → Nat) :
    runFlash so rs rk (d :: rest) (f, rom) =
      (flashEmu so rs rk f rom d).bind (runFlash so rs rk rest) := by
  cases h : flashEmu so rs rk f rom d with
  | none => simp [runFlash, h]
  | some s =>
    obtain ⟨f1, rom1⟩ := s
    simp [runFlash, h]

/-- A matched clock-low/clock-high pair with an even counter at least 4:
the bit is shifted into the current argument byte, no dispatch. -/
theorem run_pair (so rs rk st c n fl : Nat) (ar : Nat → Nat) (ad : Nat)
    (rom : Nat → Nat) (b : Nat) (rest : List Nat)
    (hst : st = 2 ∨ st = 3) (hb : b < 2) (hev : n % 2 = 0) (h4 : 4 ≤ n) :
    runFlash so rs rk ((2 ||| b <<< 2) :: (3 ||| b <<< 2) :: rest)
        (⟨st, c, n, fl, ar, ad⟩, rom) =
      runFlash so rs rk rest
        (⟨st, c, n - 2, fl,
          upd ar ((n - 1) >>> 4) (shiftin (ar ((n - 1) >>> 4)) b), ad⟩, rom) := by
  rw [runFlash_cons_some so rs rk _ _ _ _ _ _
    (flashEmu_lo so rs rk st c n fl ar ad rom b hst hb hev (by omega))]
  have h16 : (n - 1 - 1) >>> 4 = (n - 1) >>> 4 := by
    simp only [Nat.shiftRight_eq_div_pow]
    omega
  have har : (upd ar ((n - 1) >>> 4) ((ar ((n - 1) >>> 4) <<< 1 ||| b) % 256))
      ((n - 1 - 1) >>> 4) &&& 1 = b := by
    rw [h16, upd_self]
    exact shiftin_bit _ b hb
  rw [runFlash_cons_some so rs rk _ _ _ _ _ _
    (flashEmu_hi so rs rk st c (n - 1) fl _ ad rom b hst hb
      (by omega) (by omega) har)]
  rw [show n - 1 - 1 = n - 2 by omega]
  rfl

/-- A matched clock pair with counter 2: the last bit is shifted in and
the command dispatches. -/
theorem run_pair_last (so rs rk st c fl : Nat) (ar : Nat → Nat) (ad : Nat)
    (rom : Nat → Nat) (b : Nat) (rest : List Nat)
    (hst : st = 2 ∨ st = 3) (hb : b < 2) :
    runFlash so rs rk ((2 ||| b <<< 2) :: (3 ||| b <<< 2) :: rest)
        (⟨st, c, 2, fl, ar, ad⟩, rom) =
      (flashDispatch so rs rk ⟨st, c, 0, fl, upd ar 0 (shiftin (ar 0) b), ad⟩
        rom).bind (runFlash so rs rk rest) := by
  rw [runFlash_cons_some so rs rk _ _ _ _ _ _
    (flashEmu_lo so rs rk st c 2 fl ar ad rom b hst hb (by decide) (by decide))]
  rw [runFlash_bind]
  have har : (upd ar ((2 - 1) >>> 4) ((ar ((2 - 1) >>> 4) <<< 1 ||| b) % 256))
      ((1 - 1) >>> 4) &&& 1 = b := by
    rw [show ((1:Nat) - 1) >>> 4 = 0 by decide, show ((2:Nat) - 1) >>> 4 = 0 by decide,
      upd_self]
    exact shiftin_bit _ b hb
  rw [show ((2:Nat) - 1) >>> 4 = 0 by decide] at har ⊢
  rw [show (2:Nat) - 1 = 1 by decide]
  rw [flashEmu_hi_last so rs rk st c fl _ ad rom b hst hb
    (by rw [show ((1:Nat) - 1) >>> 4 = 0 by decide] at har; exact har)]
  rfl

/-- Running a bit list whose clocks all target argument byte `idx` and
leave the counter positive: the bits are folded into `args[idx]`. -/
theorem run_bits_cont (so rs rk st c fl : Nat) (bs : List Nat) :
    ∀ (n : Nat) (ar : Nat → Nat) (idx ad : Nat) (rom : Nat → Nat)
      (rest : List Nat),
    (st = 2 ∨ st = 3) → (∀ b ∈ bs, b < 2) → n % 2 = 0 →
    2 * bs.length + 2 ≤ n → n ≤ 16 * idx + 16 → 16 * idx + 2 * bs.length ≤ n →
    runFlash so rs rk (sendBits bs ++ rest) (⟨st, c, n, fl, ar, ad⟩, rom) =
      runFlash so rs rk rest
        (⟨st, c, n - 2 * bs.length, fl,
          upd ar idx (bs.foldl shiftin (ar idx)), ad⟩, rom) := by
  induction bs with
  | nil =>
    intro n ar idx ad rom rest _ _ _ _ _ _
    simp only [sendBits, List.nil_append, List.length_nil, List.foldl_nil,
      Nat.mul_zero, Nat.sub_zero, upd_id]
  | cons b bs2 ih =>
    intro n ar idx ad rom rest hst hbs hev h1 h2 h3
    simp only [List.length_cons] at h1 h3
    have hb : b < 2 := hbs b (by simp)
    have hsb : sendBits (b :: bs2) ++ rest =
        (2 ||| b <<< 2) :: (3 ||| b <<< 2) :: (sendBits bs2 ++ rest) := by
      simp [sendBits]
    rw [hsb, run_pair so rs rk st c n fl ar ad rom b _ hst hb hev (by omega)]
    rw [show (n - 1) >>> 4 = idx by
      simp only [Nat.shiftRight_eq_div_pow]
      omega]
    rw [ih (n - 2) (upd ar idx (shiftin (ar idx) b)) idx ad rom rest hst
      (fun x hx => hbs x (by simp [hx])) (by omega) (by omega) (by omega)
      (by omega)]
    rw [upd_upd_same, upd_self]
    rw [show n - 2 - 2 * bs2.length = n - 2 * (b :: bs2).length by
      simp [List.length_cons]; omega]
    rw [List.foldl_cons]

theorem shiftin_arith (x b : Nat) (hb : b < 2) :
    shiftin x b = (2 * x + b) % 256 := by
  unfold shiftin
  rw [Nat.shiftLeft_eq, show x * 2 ^ 1 = 2 ^ 1 * x by ring,
    ← Nat.mul_add_lt_is_or (show b < 2 ^ 1 by omega) x]

/-- Shifting the eight bits of a byte below 256 into the accumulator
yields that byte, whatever the accumulator held before. -/
theorem foldl_byteBits (a v : Nat) (hv : v < 256) :
    (byteBits v).foldl shiftin a = v := by
  have hb : ∀ k, v >>> k &&& 1 < 2 := by
    intro k
    rw [Nat.and_one_is_mod]
    omega
  have hb0 : v &&& 1 < 2 := by
    rw [Nat.and_one_is_mod]
    omega
  simp only [byteBits, List.foldl_cons, List.foldl_nil]
  rw [shiftin_arith _ _ (hb 7), shiftin_arith _ _ (hb 6), shiftin_arith _ _ (hb 5),
    shiftin_arith _ _ (hb 4), shiftin_arith _ _ (hb 3), shiftin_arith _ _ (hb 2),
    shiftin_arith _ _ (hb 1), shiftin_arith _ _ hb0]
  simp only [Nat.shiftRight_eq_div_pow, Nat.and_one_is_mod]
  norm_num
  omega

/-- Sending a full byte while a later argument byte is still pending:
`args[idx]` receives the byte and the counter drops by 16. -/
theorem run_byte (so rs rk st c fl idx : Nat) (ar : Nat → Nat) (ad : Nat)
    (rom : Nat → Nat) (rest : List Nat) (v : Nat)
    (hst : st = 2 ∨ st = 3) (hv : v < 256) (hidx : 1 ≤ idx) :
    runFlash so rs rk (sendByte v ++ rest)
        (⟨st, c, 16 * idx + 16, fl, ar, ad⟩, rom) =
      runFlash so rs rk rest (⟨st, c, 16 * idx, fl, upd ar idx v, ad⟩, rom) := by
  have hbits : ∀ b ∈ byteBits v, b < 2 := by
    intro b hbm
    simp only [byteBits, List.mem_cons, List.not_mem_nil, or_false] at hbm
    rcases hbm with rfl | rfl | rfl | rfl | rfl | rfl | rfl | rfl <;>
      (rw [Nat.and_one_is_mod]; omega)
  have hlen : (byteBits v).length = 8 := rfl
  rw [sendByte_eq_sendBits]
  rw [run_bits_cont so rs rk st c fl (byteBits v) (16 * idx + 16) ar idx ad rom
    rest hst hbits (by omega) (by rw [hlen]; omega) (by omega) (by rw [hlen])]
  rw [foldl_byteBits (ar idx) v hv, hlen]
  rw [show 16 * idx + 16 - 2 * 8 = 16 * idx by omega]

/-- Sending the final byte of an argument phase: the byte lands in
`args[0]` and the command dispatches. -/
theorem run_byte_last (so rs rk st c fl : Nat) (ar : Nat → Nat) (ad : Nat)
    (rom : Nat → Nat) (rest : List Nat) (v : Nat)
    (hst : st = 2 ∨ st = 3) (hv : v < 256) :
    runFlash so rs rk (sendByte v ++ rest) (⟨st, c, 16, fl, ar, ad⟩, rom) =
      (flashDispatch so rs rk ⟨st, c, 0, fl, upd ar 0 v, ad⟩ rom).bind
        (runFlash so rs rk rest) := by
  have hbits : ∀ b ∈ [v >>> 7 &&& 1, v >>> 6 &&& 1, v >>> 5 &&& 1, v >>> 4 &&& 1,
      v >>> 3 &&& 1, v >>> 2 &&& 1, v >>> 1 &&& 1], b < 2 := by
    intro b hbm
    simp only [List.mem_cons, List.not_mem_nil, or_false] at hbm
    rcases hbm with rfl | rfl | rfl | rfl | rfl | rfl | rfl <;>
      (rw [Nat.and_one_is_mod]; omega)
  have hb0 : v &&& 1 < 2 := by
    rw [Nat.and_one_is_mod]
    omega
  have hsplit : sendByte v ++ rest =
      sendBits [v >>> 7 &&& 1, v >>> 6 &&& 1, v >>> 5 &&& 1, v >>> 4 &&& 1,
        v >>> 3 &&& 1, v >>> 2 &&& 1, v >>> 1 &&& 1] ++
      ((2 ||| (v &&& 1) <<< 2) :: (3 ||| (v &&& 1) <<< 2) :: rest) := by
    simp [sendByte, sendBits]
  rw [hsplit]
  rw [run_bits_cont so rs rk st c fl _ 16 ar 0 ad rom _ hst hbits (by decide)
    (by simp) (by simp) (by simp)]
  rw [show (16 : Nat) - 2 * ([v >>> 7 &&& 1, v >>> 6 &&& 1, v >>> 5 &&& 1,
    v >>> 4 &&& 1, v >>> 3 &&& 1, v >>> 2 &&& 1, v >>> 1 &&& 1] : List Nat).length
    = 2 by simp]
  rw [run_pair_last so rs rk st c fl _ ad rom (v &&& 1) rest hst hb0]
  rw [upd_upd_same, upd_self]
  rw [show shiftin (List.foldl shiftin (ar 0) [v >>> 7 &&& 1, v >>> 6 &&& 1,
    v >>> 5 &&& 1, v >>> 4 &&& 1, v >>> 3 &&& 1, v >>> 2 &&& 1, v >>> 1 &&& 1])
    (v &&& 1) = v by
    have h8 := foldl_byteBits (ar 0) v hv
    simpa [byteBits, List.foldl_cons, List.foldl_nil] using h8]

theorem and255_mod (x : Nat) : x &&& 0xff = x % 256 := by
  have h := Nat.and_pow_two_sub_one_eq_mod x 8
  norm_num at h
  exact h

theorem or2_and2 (y : Nat) : ((y ||| 2) % 256) &&& 2 = 2 := by
  apply Nat.eq_of_testBit_eq
  intro i
  rw [show (256:Nat) = 2 ^ 8 from rfl]
  simp only [Nat.testBit_and, Nat.testBit_mod_two_pow, Nat.testBit_or]
  by_cases h2 : Nat.testBit 2 i
  · have hi : i = 1 := by
      by_contra hne
      rw [show (2:Nat) = 2 ^ 1 from rfl, Nat.testBit_two_pow] at h2
      simp at h2
      omega
    subst hi
    simp [h2]
  · simp [h2]

/-- Storing 0 to the port while READY arms the command phase
(16 clock edges for the command byte). -/
theorem flashEmu_arm (so rs rk c n fl : Nat) (ar : Nat → Nat) (ad : Nat)
    (rom : Nat → Nat) :
    flashEmu so rs rk ⟨FLASH_READY, c, n, fl, ar, ad⟩ rom 0 =
      some (⟨FLASH_CMD, c, 16, fl, ar, ad⟩, rom) := by
  unfold flashEmu
  rw [if_neg (show ¬(Flash.state ⟨FLASH_READY, c, n, fl, ar, ad⟩ = FLASH_OFF) by
    show ¬(FLASH_READY = FLASH_OFF); decide)]
  rw [if_neg (show ¬((0:Nat) &&& 8 ≠ 0) by decide)]
  rw [if_pos (show Flash.state ⟨FLASH_READY, c, n, fl, ar, ad⟩ = FLASH_READY
    from rfl)]
  rw [if_pos rfl]

/-- Port writes are ignored while the flash is OFF. -/
theorem runFlash_off (so rs rk : Nat) (ds : List Nat) (c n fl : Nat)
    (ar : Nat → Nat) (ad : Nat) (rom : Nat → Nat) :
    runFlash so rs rk ds (⟨FLASH_OFF, c, n, fl, ar, ad⟩, rom) =
      some (⟨FLASH_OFF, c, n, fl, ar, ad⟩, rom) := by
  induction ds with
  | nil => rfl
  | cons d ds2 ih =>
    rw [runFlash_cons_some so rs rk d ds2 _ rom _ rom (by
      unfold flashEmu
      rw [if_pos (show Flash.state ⟨FLASH_OFF, c, n, fl, ar, ad⟩ = FLASH_OFF
        from rfl)])]
    exact ih

/-- Command dispatch of the Write Enable byte 0x06: the write-enable flag
(bit 1) is set and the flash returns to OFF. -/
theorem flashDispatch_we (so rs rk c fl : Nat) (ar : Nat → Nat) (ad : Nat)
    (rom : Nat → Nat) (har : ar 0 = 6) :
    flashDispatch so rs rk ⟨FLASH_CMD, c, 0, fl, ar, ad⟩ rom =
      some (⟨FLASH_OFF, 6, 0, ((fl &&& 0xfffffffd) ||| 2) % 256, ar, ad⟩, rom) := by
  simp only [flashDispatch, FLASH_CMD, FLASH_OFF, har]
  norm_num
  rw [show (6:Nat) &&& 2 = 2 by decide]

/-- Command dispatch of the Page Program byte 0x02: argument phase of
three address bytes, sentinel address. -/
theorem flashDispatch_pp_cmd (so rs rk c fl : Nat) (ar : Nat → Nat) (ad : Nat)
    (rom : Nat → Nat) (har : ar 0 = 2) :
    flashDispatch so rs rk ⟨FLASH_CMD, c, 0, fl, ar, ad⟩ rom =
      some (⟨FLASH_CMD2, 2, 48, fl, ar, 0xffffffff⟩, rom) := by
  simp only [flashDispatch, FLASH_CMD, FLASH_CMD2, har]
  norm_num

/-- Page Program address capture with write-enable set: the aligned,
in-range address is latched and one data byte is awaited. -/
theorem flashDispatch_pp_addr (so rs rk fl P : Nat) (ar : Nat → Nat)
    (rom : Nat → Nat) (hcm : read24 ar 0 = P) (hal : P &&& 0xff = 0)
    (hso : so ≤ P) (hrs : P < rs) (hwe : fl &&& 2 = 2) :
    flashDispatch so rs rk ⟨FLASH_CMD2, 2, 0, fl, ar, 0xffffffff⟩ rom =
      some (⟨FLASH_CMD2, 2, 16, fl, ar, P⟩, rom) := by
  simp only [flashDispatch, FLASH_CMD, FLASH_CMD2, hcm, hal, hwe]
  norm_num [hso, Nat.not_lt.mpr hso, Nat.not_le.mpr hrs]

/-- Page Program address capture without write-enable: the flash simply
turns OFF. -/
theorem flashDispatch_pp_addr_nwe (so rs rk fl P : Nat) (ar : Nat → Nat)
    (rom : Nat → Nat) (hcm : read24 ar 0 = P) (hal : P &&& 0xff = 0)
    (hso : so ≤ P) (hrs : P < rs) (hwe : fl &&& 2 = 0) :
    flashDispatch so rs rk ⟨FLASH_CMD2, 2, 0, fl, ar, 0xffffffff⟩ rom =
      some (⟨FLASH_OFF, 2, 0, fl, ar, P⟩, rom) := by
  simp only [flashDispatch, FLASH_CMD, FLASH_CMD2, FLASH_OFF, hcm, hal, hwe]
  norm_num [hso, Nat.not_lt.mpr hso, Nat.not_le.mpr hrs]

/-- Page Program data byte, not yet at the page boundary: the byte is
programmed XOR the ROM key and the address advances. -/
theorem flashDispatch_pp_data_cont (so rs rk fl A : Nat) (ar : Nat → Nat)
    (rom : Nat → Nat) (hA : A ≠ 0xffffffff) (hb : (A + 1) &&& 0xff ≠ 0) :
    flashDispatch so rs rk ⟨FLASH_CMD2, 2, 0, fl, ar, A⟩ rom =
      some (⟨FLASH_CMD2, 2, 16, fl, ar, A + 1⟩, upd rom A (ar 0 ^^^ rk)) := by
  simp only [flashDispatch, FLASH_CMD, FLASH_CMD2, hA, hb]
  norm_num [hA, hb]

/-- Page Program data byte crossing the 256-byte page boundary: the byte
is programmed and the flash turns OFF. -/
theorem flashDispatch_pp_data_end (so rs rk fl A : Nat) (ar : Nat → Nat)
    (rom : Nat → Nat) (hA : A ≠ 0xffffffff) (hb : (A + 1) &&& 0xff = 0) :
    flashDispatch so rs rk ⟨FLASH_CMD2, 2, 0, fl, ar, A⟩ rom =
      some (⟨FLASH_OFF, 2, 0, fl, ar, A + 1⟩, upd rom A (ar 0 ^^^ rk)) := by
  simp only [flashDispatch, FLASH_CMD, FLASH_CMD2, FLASH_OFF, hA, hb]
  norm_num [hA, hb]

/-- Reassembling a 24-bit address from its three big-endian-sent bytes. -/
theorem read24_recompose (ar : Nat → Nat) (P : Nat) (_hP : P < 0x1000000)
    (h0 : ar 0 = P &&& 0xff) (h1 : ar 1 = (P >>> 8) &&& 0xff)
    (h2 : ar 2 = P >>> 16) :
    read24 ar 0 = P := by
  show ar 0 ||| ar (0 + 1) <<< 8 ||| ar (0 + 2) <<< 16 = P
  norm_num
  rw [h0, h1, h2]
  rw [and255_mod, and255_mod, Nat.shiftRight_eq_div_pow, Nat.shiftRight_eq_div_pow,
    Nat.shiftLeft_eq, Nat.shiftLeft_eq]
  rw [Nat.or_comm (P % 256), show P / 2 ^ 8 % 256 * 2 ^ 8 = 2 ^ 8 * (P / 2 ^ 8 % 256)
    by ring, ← Nat.mul_add_lt_is_or (show P % 256 < 2 ^ 8 by omega) _]
  rw [Nat.or_comm, show P / 2 ^ 16 * 2 ^ 16 = 2 ^ 16 * (P / 2 ^ 16) by ring,
    ← Nat.mul_add_lt_is_or (show 2 ^ 8 * (P / 2 ^ 8 % 256) + P % 256 < 2 ^ 16
      by omega) _]
  omega

/-- The data phase of Page Program: each byte of `bs` is programmed
XOR the ROM key at consecutive addresses, and reaching the page boundary
turns the flash OFF. -/
theorem run_data (so rs rk fl : Nat) (bs : List Nat) :
    ∀ (A : Nat) (ar : Nat → Nat) (rom : Nat → Nat),
    (∀ b ∈ bs, b < 256) → A % 256 + bs.length = 256 →
    A + bs.length ≤ 0x1000000 →
    ∃ arf romf,
      runFlash so rs rk (sendBytes bs) (⟨FLASH_CMD2, 2, 16, fl, ar, A⟩, rom) =
        some (⟨FLASH_OFF, 2, 0, fl, arf, A + bs.length⟩, romf) ∧
      (∀ i, i < bs.length → romf (A + i) = bs.getD i 0 ^^^ rk) ∧
      (∀ a, a < A ∨ A + bs.length ≤ a → romf a = rom a) := by
  induction bs with
  | nil =>
    intro A ar rom _ hA _
    simp only [List.length_nil] at hA
    omega
  | cons v bs2 ih =>
    intro A ar rom hbs hA h24
    simp only [List.length_cons] at hA h24
    have hv : v < 256 := hbs v (by simp)
    have hAne : A ≠ 0xffffffff := by omega
    have hsb : sendBytes (v :: bs2) = sendByte v ++ sendBytes bs2 := rfl
    rw [hsb, run_byte_last so rs rk FLASH_CMD2 2 fl ar A rom (sendBytes bs2) v
      (Or.inr rfl) hv]
    by_cases h2 : bs2 = []
    · subst h2
      simp only [List.length_nil] at hA
      rw [flashDispatch_pp_data_end so rs rk fl A (upd ar 0 v) rom hAne
        (by rw [and255_mod]; omega)]
      rw [Option.some_bind]
      refine ⟨upd ar 0 v, upd rom A (upd ar 0 v 0 ^^^ rk),
        (show runFlash so rs rk (sendBytes []) _ = _ from rfl), ?_, ?_⟩
      · intro i hi
        simp only [List.length_cons, List.length_nil] at hi
        have hi0 : i = 0 := by omega
        subst hi0
        rw [Nat.add_zero, upd_self, upd_self]
        rfl
      · intro a ha
        simp only [List.length_cons, List.length_nil] at ha
        rw [upd_ne rom A _ a (by omega)]
    · have hl2 : 1 ≤ bs2.length := by
        cases bs2 with
        | nil => exact absurd rfl h2
        | cons x xs => simp
      rw [flashDispatch_pp_data_cont so rs rk fl A (upd ar 0 v) rom hAne
        (by rw [and255_mod]; omega)]
      rw [Option.some_bind]
      obtain ⟨arf, romf, hrun, hin, hout⟩ := ih (A + 1) (upd ar 0 v)
        (upd rom A (upd ar 0 v 0 ^^^ rk))
        (fun x hx => hbs x (by simp [hx])) (by omega) (by omega)
      refine ⟨arf, romf, ?_, ?_, ?_⟩
      · rw [hrun]
        rw [show A + 1 + bs2.length = A + (v :: bs2).length by simp; omega]
      · intro i hi
        simp only [List.length_cons] at hi
        cases i with
        | zero =>
          rw [Nat.add_zero]
          rw [hout A (by omega), upd_self, upd_self]
          rfl
        | succ j =>
          rw [show A + (j + 1) = A + 1 + j by omega]
          rw [hin j (by omega)]
          rfl
      · intro a ha
        simp only [List.length_cons] at ha
        rw [hout a (by omega), upd_ne rom A _ a (by omega)]

/-- The byte sequence the firmware bit-bangs for Write Enable: arm (0),
then command byte 0x06. -/
def weTrace : List Nat := 0 :: sendByte 6

/-- The byte sequence for a full Page Program: arm (0), command byte
0x02, three address bytes most-significant first, then the data bytes. -/
def ppTrace (P : Nat) (bs : List Nat) : List Nat :=
  0 :: (sendByte 2 ++ (sendByte (P >>> 16) ++ (sendByte ((P >>> 8) &&& 0xff) ++
    (sendByte (P &&& 0xff) ++ sendBytes bs))))

/-- Running the Page Program header (arm, command, address bytes) from an
armed flash: the three address bytes are accumulated and the capture
dispatch runs. -/
theorem run_pp_header (so rs rk : Nat) (g : Flash) (rom : Nat → Nat)
    (P : Nat) (bs : List Nat) (h24 : P < 0x1000000) :
    runFlash so rs rk (ppTrace P bs) (flashOn g, rom) =
      (flashDispatch so rs rk ⟨FLASH_CMD2, 2, 0, g.flags,
        upd (upd (upd (upd g.args 0 2) 2 (P >>> 16)) 1 ((P >>> 8) &&& 0xff))
          0 (P &&& 0xff),
        0xffffffff⟩ rom).bind (runFlash so rs rk (sendBytes bs)) := by
  unfold ppTrace
  rw [show flashOn g =
    (⟨FLASH_READY, g.cmd, g.narg, g.flags, g.args, g.addr⟩ : Flash) from rfl]
  rw [runFlash_cons_some so rs rk 0 _ _ rom _ rom
    (flashEmu_arm so rs rk g.cmd g.narg g.flags g.args g.addr rom)]
  rw [run_byte_last so rs rk FLASH_CMD g.cmd g.flags g.args g.addr rom _ 2
    (Or.inl rfl) (by norm_num)]
  rw [flashDispatch_pp_cmd so rs rk g.cmd g.flags (upd g.args 0 2) g.addr rom
    (upd_self _ _ _)]
  rw [Option.some_bind]
  rw [show (48:Nat) = 16 * 2 + 16 by norm_num]
  rw [run_byte so rs rk FLASH_CMD2 2 g.flags 2 (upd g.args 0 2) 0xffffffff rom
    _ (P >>> 16) (Or.inr rfl) (by rw [Nat.shiftRight_eq_div_pow]; omega)
    (by norm_num)]
  rw [show (16 * 2:Nat) = 16 * 1 + 16 by norm_num]
  rw [run_byte so rs rk FLASH_CMD2 2 g.flags 1 _ 0xffffffff rom
    _ ((P >>> 8) &&& 0xff) (Or.inr rfl) (by rw [and255_mod]; omega)
    (by norm_num)]
  rw [show (16 * 1:Nat) = 16 by norm_num]
  rw [run_byte_last so rs rk FLASH_CMD2 2 g.flags _ 0xffffffff rom
    (sendBytes bs) (P &&& 0xff) (Or.inr rfl) (by rw [and255_mod]; omega)]

/-- C5: arming the flash and sending Write Enable (0x06) sets the
write-enable flag (bit 1) and returns the flash to OFF; arming again and
sending Page Program (0x02) with a 256-byte-aligned address P inside the
save region followed by 256 data bytes stores each byte XOR the ROM key
at P+i, leaves all other ROM bytes unchanged, and turns the flash OFF
after the page boundary; the same Page Program without write enable
leaves the ROM completely unchanged. -/
theorem c5_page_program (so rs rk P : Nat) (bs : List Nat)
    (f0 g1 n1 : Flash) (rom : Nat → Nat)
    (hlen : bs.length = 256) (hbs : ∀ b ∈ bs, b < 256)
    (hal : P % 256 = 0) (hso : so ≤ P) (hrs : P + 256 ≤ rs)
    (h24 : P + 256 ≤ 0x1000000)
    (hwe : g1.flags &&& 2 = 2) (hnwe : n1.flags &&& 2 = 0) :
    (runFlash so rs rk weTrace (flashOn f0, rom) =
        some (⟨FLASH_OFF, 6, 0, ((f0.flags &&& 0xfffffffd) ||| 2) % 256,
          upd f0.args 0 6, f0.addr⟩, rom) ∧
      (((f0.flags &&& 0xfffffffd) ||| 2) % 256) &&& 2 = 2) ∧
    (∃ arf romf,
      runFlash so rs rk (ppTrace P bs) (flashOn g1, rom) =
        some (⟨FLASH_OFF, 2, 0, g1.flags, arf, P + 256⟩, romf) ∧
      (∀ i, i < 256 → romf (P + i) = bs.getD i 0 ^^^ rk) ∧
      (∀ a, a < P ∨ P + 256 ≤ a → romf a = rom a)) ∧
    (∃ arn,
      runFlash so rs rk (ppTrace P bs) (flashOn n1, rom) =
        some (⟨FLASH_OFF, 2, 0, n1.flags, arn, P⟩, rom)) := by
  have hread : ∀ (g : Flash),
      read24 (upd (upd (upd (upd g.args 0 2) 2 (P >>> 16)) 1
        ((P >>> 8) &&& 0xff)) 0 (P &&& 0xff)) 0 = P := by
    intro g
    apply read24_recompose _ P (by omega)
    · exact upd_self _ _ _
    · rw [upd_ne _ _ _ _ (by decide), upd_self]
    · rw [upd_ne _ _ _ _ (by decide), upd_ne _ _ _ _ (by decide), upd_self]
  have hal' : P &&& 0xff = 0 := by
    rw [and255_mod]
    exact hal
  refine ⟨⟨?_, or2_and2 (f0.flags &&& 0xfffffffd)⟩, ?_, ?_⟩
  · unfold weTrace
    rw [show flashOn f0 =
      (⟨FLASH_READY, f0.cmd, f0.narg, f0.flags, f0.args, f0.addr⟩ : Flash)
      from rfl]
    rw [runFlash_cons_some so rs rk 0 _ _ rom _ rom
      (flashEmu_arm so rs rk f0.cmd f0.narg f0.flags f0.args f0.addr rom)]
    rw [show sendByte 6 = sendByte 6 ++ [] by simp]
    rw [run_byte_last so rs rk FLASH_CMD f0.cmd f0.flags f0.args f0.addr rom
      [] 6 (Or.inl rfl) (by norm_num)]
    rw [flashDispatch_we so rs rk f0.cmd f0.flags (upd f0.args 0 6) f0.addr rom
      (upd_self _ _ _)]
    rw [Option.some_bind]
    rfl
  · rw [run_pp_header so rs rk g1 rom P bs (by omega)]
    rw [flashDispatch_pp_addr so rs rk g1.flags P _ rom (hread g1) hal' hso
      (by omega) hwe]
    rw [Option.some_bind]
    obtain ⟨arf, romf, hrun, hin, hout⟩ := run_data so rs rk g1.flags bs P
      (upd (upd (upd (upd g1.args 0 2) 2 (P >>> 16)) 1 ((P >>> 8) &&& 0xff))
        0 (P &&& 0xff)) rom hbs (by omega) (by omega)
    refine ⟨arf, romf, ?_, ?_, ?_⟩
    · rw [hrun, hlen]
    · intro i hi
      exact hin i (by omega)
    · intro a ha
      exact hout a (by omega)
  · rw [run_pp_header so rs rk n1 rom P bs (by omega)]
    rw [flashDispatch_pp_addr_nwe so rs rk n1.flags P _ rom (hread n1) hal'
      hso (by omega) hnwe]
    rw [Option.some_bind]
    exact ⟨_, runFlash_off so rs rk (sendBytes bs) 2 0 n1.flags _ P rom⟩

/-- A flash state with the write-enable flag set, for the C5 witness. -/
def flashWE : Flash := ⟨0, 0, 0, 2, fun _ => 0, 0⟩

/-- Witness: the C5 theorem applied at save offset 0, ROM size 0x400000,
ROM key 0x5a, page 0x1000 and 256 data bytes 0xab. -/
theorem c5_page_program_witness :
    (runFlash 0 0x400000 0x5a weTrace (flashOn flash0, fun _ => 7) =
        some (⟨FLASH_OFF, 6, 0, ((flash0.flags &&& 0xfffffffd) ||| 2) % 256,
          upd flash0.args 0 6, flash0.addr⟩, fun _ => 7) ∧
      (((flash0.flags &&& 0xfffffffd) ||| 2) % 256) &&& 2 = 2) ∧
    (∃ arf romf,
      runFlash 0 0x400000 0x5a (ppTrace 0x1000 (List.replicate 256 0xab))
          (flashOn flashWE, fun _ => 7) =
        some (⟨FLASH_OFF, 2, 0, flashWE.flags, arf, 0x1000 + 256⟩, romf) ∧
      (∀ i, i < 256 →
        romf (0x1000 + i) = (List.replicate 256 0xab).getD i 0 ^^^ 0x5a) ∧
      (∀ a, a < 0x1000 ∨ 0x1000 + 256 ≤ a → romf a = (fun _ => 7) a)) ∧
    (∃ arn,
      runFlash 0 0x400000 0x5a (ppTrace 0x1000 (List.replicate 256 0xab))
          (flashOn flash0, fun _ => 7) =
        some (⟨FLASH_OFF, 2, 0, flash0.flags, arn, 0x1000⟩, fun _ => 7)) :=
  c5_page_program 0 0x400000 0x5a 0x1000 (List.replicate 256 0xab)
    flash0 flashWE flash0 (fun _ => 7)
    (by simp)
    (by
      intro b hb
      rw [List.eq_of_mem_replicate hb]
      norm_num)
    (by norm_num) (by norm_num) (by norm_num) (by norm_num)
    (by show (2:Nat) &&& 2 = 2; decide)
    (by show (0:Nat) &&& 2 = 0; decide)

/-! ## C4: `draw_image` clipping (lines 379-442) -/

/-- Pointwise update of the framebuffer, indexed by `int` pointer offset
from the screen base (writes before the buffer get negative indices). -/
def updI (f : Int → Nat) (i : Int) (v : Nat) : Int → Nat :=
  fun j => if j = i then v else f j

/-- The pixel value stored by `draw_image`: the RLE byte, blended with
`blend` unless `blend == 0xff` (macro `X(m)` in the source), truncated by
the `uint8_t` store. -/
def pixel (blend a : Nat) : Nat :=
  (if blend ≠ 0xff then
    ((((a &&& 0xe3) + (blend &&& 0xe3)) &&& (0xe3 <<< 1)) |||
     (((a &&& 0x1c) + (blend &&& 0x1c)) &&& (0x1c <<< 1))) >>> 1
   else a) % 256

/-- RLE decoder state of the inner pixel loop: current run byte `a`,
remaining run count `n`, source read offset `s`, remaining row length
budget `len`. -/
structure RleSt where
  a : Nat
  n : Int
  s : Nat
  len : Int

/-- One `if (!--n) {...}` step of the RLE decoder; `none` models the
`RLE error` and `zero RLE count` exits. -/
def rleNext (rom : Nat → Nat) (st : RleSt) : Option RleSt :=
  if st.n - 1 = 0 then
    if st.len - 1 < 0 then none
    else if rom st.s = 0 then
      if st.len - 3 < 0 then none
      else if rom (st.s + 2) = 0 then none
      else some ⟨rom (st.s + 1), (rom (st.s + 2) : Int), st.s + 3, st.len - 3⟩
    else some ⟨rom st.s, 1, st.s + 1, st.len - 1⟩
  else some ⟨st.a, st.n - 1, st.s, st.len⟩

/-- The inner pixel loop of `draw_image` (`w2 = w; do {...} while (--w2)`):
skips `skip` pixels, then stores blended pixels at `d2, d2+x_add, ...`.
Returns success and the framebuffer (kept also on the error exit, since
stores before an abort have happened). -/
def drawRow (rom : Nat → Nat) (alpha : Int) (blend : Nat) (xadd : Int) :
    Nat → RleSt → Int → Int → (Int → Nat) → Bool × (Int → Nat)
  | 0, _, _, _, scr => (true, scr)
  | wc + 1, st, skip, d2, scr =>
    match rleNext rom st with
    | none => (false, scr)
    | some st1 =>
      drawRow rom alpha blend xadd wc st1 (skip - 1) (d2 + xadd)
        (if skip - 1 < 0 ∧ (st1.a : Int) ≠ alpha then
          updI scr d2 (pixel blend st1.a)
         else scr)

/-- The row loop of `draw_image` (`do {...} while (--h)`): reads each
row's RLE block, skips the first `yskip` rows, draws the rest. -/
def drawRows (rom : Nat → Nat) (alpha : Int) (blend : Nat) (xadd yadd : Int)
    (w : Nat) (xskip : Int) :
    Nat → Nat → Int → Int → Int → (Int → Nat) → Bool × (Int → Nat)
  | 0, _, _, _, _, scr => (true, scr)
  | hc + 1, src, d, yskip, size, scr =>
    let len := read16 rom src
    if size < (len : Int) then (false, scr)
    else if 0 ≤ yskip - 1 then
      drawRows rom alpha blend xadd yadd w xskip hc (src + len) (d + yadd)
        (yskip - 1) (size - len) scr
    else
      match drawRow rom alpha blend xadd w ⟨0, 1, src + 2, (len : Int) - 4⟩
          xskip d scr with
      | (true, scr1) =>
        drawRows rom alpha blend xadd yadd w xskip hc (src + len) (d + yadd)
          (yskip - 1) (size - len) scr1
      | (false, scr1) => (false, scr1)

/-- `if (x >= SCREEN_W) x = (int8_t)x` (SCREEN_W = 128). -/
def xAfter (x0 : Int) : Int :=
  if 128 ≤ x0 then (x0 + 128) % 256 - 128 else x0

/-- `x_skip = -x` when the reinterpretation fired, else 0. -/
def xSkip0 (x0 : Int) : Int :=
  if 128 ≤ x0 then -((x0 + 128) % 256 - 128) else 0

/-- `if (y >= screen_h) y = (int8_t)y`. -/
def yAfter (sh : Nat) (y0 : Int) : Int :=
  if (sh : Int) ≤ y0 then (y0 + 128) % 256 - 128 else y0

/-- `y_skip = -y` when the reinterpretation fired, else 0. -/
def ySkip0 (sh : Nat) (y0 : Int) : Int :=
  if (sh : Int) ≤ y0 then -((y0 + 128) % 256 - 128) else 0

/-- Shallow embedding of `draw_image` (lines 379-442): header check,
signed reinterpretation of the coordinates, clipping, the four flips,
and the RLE row/pixel loops.  The framebuffer is indexed by `int`
offsets from `sys->screen`; the result keeps the buffer also on error
exits. -/
def draw_image (rom : Nat → Nat) (romSize sh : Nat) (scr : Int → Nat)
    (x0 y0 : Int) (pos flip blend : Nat) (alpha : Int) : Bool × (Int → Nat) :=
  if rom (pos + 1) ≠ 0 ∨ rom (pos + 3) ≠ 0x80 then (false, scr)
  else if 3 < flip then (false, scr)
  else
    let w2 : Int := (rom pos : Int)
    let h2 : Int := (rom (pos + 2) : Int)
    let x := xAfter x0
    let xskip := xSkip0 x0
    let y := yAfter sh y0
    let yskip := ySkip0 sh y0
    if 128 < x ∨ (sh : Int) < y then (true, scr)
    else
      let w := if 128 < x + w2 then 128 - x else w2
      let h := if (sh : Int) < y + h2 then (sh : Int) - y else h2
      let d0 := y * 128 + x
      let d1 := if flip &&& 1 ≠ 0 then d0 + w2 - 1 else d0
      let xadd : Int := if flip &&& 1 ≠ 0 then -1 else 1
      let w1 := if flip &&& 1 ≠ 0 then w2 - xskip else w
      let xskip1 := if flip &&& 1 ≠ 0 then w2 - w else xskip
      let d2 := if flip &&& 2 ≠ 0 then d1 + (h2 - 1) * 128 else d1
      let yadd : Int := if flip &&& 2 ≠ 0 then -128 else 128
      let h1 := if flip &&& 2 ≠ 0 then h2 - yskip else h
      let yskip1 := if flip &&& 2 ≠ 0 then h2 - h else yskip
      if w1 ≤ 0 ∨ h1 ≤ 0 then (true, scr)
      else drawRows rom alpha blend xadd yadd w1.toNat xskip1 h1.toNat
        (pos + 4) d2 yskip1 ((romSize : Int) - (pos : Int) - 4) scr

theorem updI_ne (f : Int → Nat) (i : Int) (v : Nat) (j : Int) (h : j ≠ i) :
    updI f i v j = f j := by
  simp [updI, h]

/-- The inner pixel loop writes only offsets `d2 + j*x_add` for
non-skipped iterations `j`. -/
theorem drawRow_nowrite (rom : Nat → Nat) (alpha : Int) (blend : Nat)
    (xadd : Int) :
    ∀ (wc : Nat) (st : RleSt) (skip d2 : Int) (scr : Int → Nat) (idx : Int),
    (∀ j : Nat, j < wc → skip ≤ (j : Int) → idx ≠ d2 + (j : Int) * xadd) →
    (drawRow rom alpha blend xadd wc st skip d2 scr).2 idx = scr idx := by
  intro wc
  induction wc with
  | zero => intro st skip d2 scr idx _; rfl
  | succ wc ih =>
    intro st skip d2 scr idx h
    show (drawRow rom alpha blend xadd (wc + 1) st skip d2 scr).2 idx = scr idx
    rw [drawRow]
    cases hr : rleNext rom st with
    | none => rfl
    | some st1 =>
      rw [ih st1 (skip - 1) (d2 + xadd) _ idx (by
        intro j hj hsj
        have hgen := h (j + 1) (by omega) (by push_cast; omega)
        intro heq
        apply hgen
        rw [heq]
        push_cast
        ring)]
      by_cases hw : skip - 1 < 0 ∧ (st1.a : Int) ≠ alpha
      · rw [if_pos hw]
        exact updI_ne scr d2 _ idx (by
          have := h 0 (by omega) (by omega; )
          intro heq
          apply this
          rw [heq]
          push_cast
          ring)
      · rw [if_neg hw]

/-- The row loop writes only offsets `d + i*y_add + j*x_add` for
non-skipped rows `i` and non-skipped columns `j`. -/
theorem drawRows_nowrite (rom : Nat → Nat) (alpha : Int) (blend : Nat)
    (xadd yadd : Int) (w : Nat) (xskip : Int) :
    ∀ (hc : Nat) (src : Nat) (d yskip size : Int) (scr : Int → Nat)
      (idx : Int),
    (∀ (i j : Nat), i < hc → yskip ≤ (i : Int) → j < w → xskip ≤ (j : Int) →
      idx ≠ d + (i : Int) * yadd + (j : Int) * xadd) →
    (drawRows rom alpha blend xadd yadd w xskip hc src d yskip size scr).2 idx
      = scr idx := by
  intro hc
  induction hc with
  | zero => intro src d yskip size scr idx _; rfl
  | succ hc ih =>
    intro src d yskip size scr idx h
    have hshift : ∀ (scr2 : Int → Nat),
        (∀ (i j : Nat), i < hc → yskip - 1 ≤ (i : Int) → j < w →
          xskip ≤ (j : Int) →
          idx ≠ (d + yadd) + (i : Int) * yadd + (j : Int) * xadd) := by
      intro _ i j hi hyi hj hxj
      have hgen := h (i + 1) j (by omega) (by push_cast; omega) hj hxj
      intro heq
      apply hgen
      rw [heq]
      push_cast
      ring
    show (drawRows rom alpha blend xadd yadd w xskip (hc + 1)
      src d yskip size scr).2 idx = scr idx
    rw [drawRows]
    by_cases hsz : size < ((read16 rom src : Nat) : Int)
    · rw [if_pos hsz]
    · rw [if_neg hsz]
      by_cases hys : 0 ≤ yskip - 1
      · rw [if_pos hys]
        exact ih _ _ _ _ scr idx (hshift scr)
      · rw [if_neg hys]
        have hrow : (drawRow rom alpha blend xadd w
            ⟨0, 1, src + 2, ((read16 rom src : Nat) : Int) - 4⟩ xskip d
            scr).2 idx = scr idx := by
          apply drawRow_nowrite
          intro j hj hxj
          have hgen := h 0 j (by omega) (by omega) hj hxj
          intro heq
          apply hgen
          rw [heq]
          push_cast
          ring
        cases hdr : drawRow rom alpha blend xadd w
            ⟨0, 1, src + 2, ((read16 rom src : Nat) : Int) - 4⟩ xskip d scr with
        | mk ok scr1 =>
          have hscr1 : scr1 idx = scr idx := by
            rw [show scr1 = (drawRow rom alpha blend xadd w
              ⟨0, 1, src + 2, ((read16 rom src : Nat) : Int) - 4⟩ xskip d
              scr).2 by rw [hdr]]
            exact hrow
          cases ok with
          | true =>
            rw [ih _ _ _ _ scr1 idx (hshift scr1)]
            exact hscr1
          | false =>
            exact hscr1

/-- A minimal valid 2-by-1 image resource at offset 0: header 2,0,1,0x80,
one row of length 6 encoding two literal pixels of value 5. -/
def romC4 : Nat → Nat := fun i =>
  if i = 0 then 2 else if i = 2 then 1 else if i = 3 then 0x80
  else if i = 4 then 6 else if i = 6 then 5 else if i = 7 then 5 else 0

/-- C4 does not hold as stated: for the directly negative coordinate
x = −1 (allowed by the claimed range −128 ≤ x ≤ 255) the `x >= SCREEN_W`
reinterpretation does not fire, `x_skip` stays 0, and drawing a valid
2-by-1 image at (−1, 0) stores a byte at framebuffer index −1, outside
[0, SCREEN_W * screen_h). -/
theorem c4_counterexample :
    (draw_image romC4 12 128 (fun _ => 0) (-1) 0 0 0 0xff 0).1 = true ∧
    (draw_image romC4 12 128 (fun _ => 0) (-1) 0 0 0 0xff 0).2 (-1) = 5 ∧
    ((-1 : Int) < 0 ∨ 128 * 128 ≤ (-1 : Int)) ∧
    (-128 ≤ (-1 : Int) ∧ (-1 : Int) ≤ 255) := by
  refine ⟨?_, ?_, by norm_num, by norm_num⟩ <;> rfl

/-- C4 (amended): for 0 ≤ x ≤ 255 and 0 ≤ y ≤ 255 — negative placement
encoded by values ≥ SCREEN_W (resp. ≥ screen_h), which the routine
reinterprets as int8_t — and any flip, blend and alpha, `draw_image`
never stores a framebuffer byte outside [0, SCREEN_W * screen_h),
including on its error-exit paths. -/
theorem c4_draw_clip (rom : Nat → Nat) (romSize sh : Nat) (scr : Int → Nat)
    (x0 y0 : Int) (pos flip blend : Nat) (alpha : Int) (idx : Int)
    (hrom : ∀ i, rom i < 256)
    (hx0 : 0 ≤ x0) (hx1 : x0 ≤ 255) (hy0 : 0 ≤ y0) (hy1 : y0 ≤ 255)
    (hidx : idx < 0 ∨ 128 * (sh : Int) ≤ idx) :
    (draw_image rom romSize sh scr x0 y0 pos flip blend alpha).2 idx
      = scr idx := by
  have hw2 := hrom pos
  have hh2 := hrom (pos + 2)
  simp only [draw_image, xAfter, xSkip0, yAfter, ySkip0]
  split_ifs <;>
    first
      | rfl
      | (apply drawRows_nowrite
         intro i j hi hyi hj hxj heq
         omega)

/-- Witness: the amended C4 theorem applied to the concrete image
`romC4` drawn in-bounds at (5, 3), checked at the out-of-range index −7. -/
theorem c4_draw_clip_witness :
    (draw_image romC4 12 128 (fun _ => 0) 5 3 0 0 255 0).2 (-7) = 0 :=
  c4_draw_clip romC4 12 128 (fun _ => 0) 5 3 0 0 255 0 (-7)
    (by
      intro i
      unfold romC4
      split_ifs <;> norm_num)
    (by norm_num) (by norm_num) (by norm_num) (by norm_num)
    (Or.inl (by norm_num))

end Touma
